import Mathlib

/-!
# M5Porkchop: the passive 802.11 frame analyser

A shallow embedding of `src/modes/oink.cpp` (`OinkMode`), of the beacon part of
`src/ml/features.cpp` (`FeatureExtractor`) and of the stub classifier of
`src/ml/inference.cpp` (`MLInference`).

* A frame buffer (`const uint8_t*`) is a total map from byte index to a number; every
  read goes through `rd`, which reduces the cell modulo 256, so a read is always a byte.
  The declared length travels separately, exactly as in the source.
* The process-wide static members of `OinkMode` are the fields of `OinkState`; every
  operation is a function from state to state.  `millis()` is the argument `now`.
* Unsigned 16-bit offsets are natural numbers reduced modulo `2 ^ 16` where the source
  assigns to a `uint16_t`; comparisons such as `offset + 2 < len` are done on promoted
  `int` values in C++, hence on unreduced naturals here.
* Loops whose termination is not evident from the source carry a fuel argument and
  return `none` when the fuel is used up.
* The three `float` fields of `WiFiFeatures` only ever hold integers on the paths
  embedded here (`snr` is the difference of two `int8_t`), so they are integers.
-/

namespace Porkchop

/-! ## Buffers -/

/-- Memory seen through a `const uint8_t*`: cell contents by index. -/
abbrev Buf := Nat → Nat

/-- One byte read, `p[i]`. -/
def rd (p : Buf) (i : Nat) : Nat := p i % 256

/-- Pointer arithmetic, `p + k`. -/
def shift (p : Buf) (k : Nat) : Buf := fun i => p (k + i)

/-- A buffer holding the given bytes (zero elsewhere). -/
def ofList (l : List Nat) : Buf := fun i => l.getD i 0

/-- The six bytes of a hardware address, as `memcpy(dst, p, 6)` reads them. -/
def readMac (p : Buf) : List Nat := [rd p 0, rd p 1, rd p 2, rd p 3, rd p 4, rd p 5]

/-- The bytes `p[0 .. n)`, as `memcpy(dst, p, n)` reads them. -/
def readBytes (p : Buf) (n : Nat) : List Nat := (List.range n).map (rd p)

/-- Apply `f` to the `n`-th element of a list (the assignment `v[n].field = ...`). -/
def modifyNth {α : Type} (f : α → α) : List α → Nat → List α
  | [], _ => []
  | x :: xs, 0 => f x :: xs
  | x :: xs, n + 1 => x :: modifyNth f xs n

/-! ## Data model (`features.h`, `oink.h`) -/

/-- The record `WiFiFeatures` of `features.h`. -/
structure WiFiFeatures where
  rssi : Int
  noise : Int
  snr : Int
  channel : Nat
  secondaryChannel : Nat
  beaconInterval : Nat
  capability : Nat
  hasWPS : Bool
  hasWPA : Bool
  hasWPA2 : Bool
  hasWPA3 : Bool
  isHidden : Bool
  responseTime : Nat
  beaconCount : Nat
  beaconJitter : Int
  respondsToProbe : Bool
  probeResponseTime : Nat
  vendorIECount : Nat
  supportedRates : Nat
  htCapabilities : Nat
  vhtCapabilities : Nat
  anomalyScore : Int
  deriving DecidableEq, Repr

/-- The value of `WiFiFeatures f = {0};`. -/
def zeroFeatures : WiFiFeatures :=
  { rssi := 0, noise := 0, snr := 0, channel := 0, secondaryChannel := 0,
    beaconInterval := 0, capability := 0, hasWPS := false, hasWPA := false,
    hasWPA2 := false, hasWPA3 := false, isHidden := false, responseTime := 0,
    beaconCount := 0, beaconJitter := 0, respondsToProbe := false,
    probeResponseTime := 0, vendorIECount := 0, supportedRates := 0,
    htCapabilities := 0, vhtCapabilities := 0, anomalyScore := 0 }

/-- The record `DetectedNetwork` of `oink.h`; `ssid` is the whole `char[33]` array. -/
structure DetectedNetwork where
  bssid : List Nat
  ssid : List Nat
  rssi : Int
  channel : Nat
  authmode : Nat
  features : WiFiFeatures
  lastSeen : Nat
  beaconCount : Nat
  isTarget : Bool
  deriving DecidableEq, Repr

/-- The record `CapturedHandshake` of `oink.h`; `ssid` and `eapolData` are the whole
arrays (`char[33]`, `uint8_t[512]`). -/
structure CapturedHandshake where
  bssid : List Nat
  station : List Nat
  ssid : List Nat
  eapolData : List Nat
  eapolLen : Nat
  messageNum : Nat
  timestamp : Nat
  complete : Bool
  deriving DecidableEq, Repr

/-- The static members of `OinkMode` (`oink.cpp` lines 13-30), the function-local
static `lastDeauth` of `promiscuousCallback`, and what the radio has been told:
the channel of the last `esp_wifi_set_channel`, the promiscuous flag and the frames
handed to `esp_wifi_80211_tx`, oldest first; the last two fields count the calls of
`Mood::onNewNetwork` and `Mood::onHandshakeCaptured`. -/
structure OinkState where
  running : Bool
  scanning : Bool
  deauthing : Bool
  channelHopping : Bool
  currentChannel : Nat
  lastHopTime : Nat
  lastScanTime : Nat
  networks : List DetectedNetwork
  handshakes : List CapturedHandshake
  targetIndex : Int
  packetCount : Nat
  deauthCount : Nat
  currentHopIndex : Nat
  lastDeauth : Nat
  radioChannel : Nat
  promiscuous : Bool
  txFrames : List (List Nat)
  newNetworkEvents : Nat
  handshakeEvents : Nat
  deriving DecidableEq, Repr

/-- The initial values of the static members, before `init()` or `start()`. -/
def initialState : OinkState :=
  { running := false, scanning := false, deauthing := false, channelHopping := true,
    currentChannel := 1, lastHopTime := 0, lastScanTime := 0, networks := [],
    handshakes := [], targetIndex := -1, packetCount := 0, deauthCount := 0,
    currentHopIndex := 0, lastDeauth := 0, radioChannel := 0, promiscuous := false,
    txFrames := [], newNetworkEvents := 0, handshakeEvents := 0 }

/-! ## Target selection (`oink.cpp` lines 120-166) -/

/-- The function `OinkMode::setChannel`. -/
def setChannel (s : OinkState) (ch : Nat) : OinkState :=
  if ch < 1 ∨ ch > 14 then s
  else { s with currentChannel := ch, radioChannel := ch }

/-- The function `OinkMode::selectTarget`. -/
def selectTarget (s : OinkState) (index : Int) : OinkState :=
  if 0 ≤ index ∧ index < (s.networks.length : Int) then
    let s1 := { s with targetIndex := index }
    let s2 := { s1 with
      networks := modifyNth (fun n => { n with isTarget := true }) s1.networks index.toNat }
    let s3 := { s2 with channelHopping := false }
    match s3.networks[index.toNat]? with
    | some n => setChannel s3 n.channel
    | none => s3
  else s

/-- The function `OinkMode::clearTarget`. -/
def clearTarget (s : OinkState) : OinkState :=
  let s1 :=
    if 0 ≤ s.targetIndex ∧ s.targetIndex < (s.networks.length : Int) then
      { s with
        networks :=
          modifyNth (fun n => { n with isTarget := false }) s.networks s.targetIndex.toNat }
    else s
  { s1 with targetIndex := -1, channelHopping := true }

/-- The function `OinkMode::getTarget` (the entry pointed to, if any). -/
def getTarget (s : OinkState) : Option DetectedNetwork :=
  if 0 ≤ s.targetIndex ∧ s.targetIndex < (s.networks.length : Int) then
    s.networks[s.targetIndex.toNat]?
  else none

/-- How many registry entries carry the target flag. -/
def targetCount (s : OinkState) : Nat := (s.networks.filter (fun n => n.isTarget)).length

/-- A registry entry with the given address byte and channel, no flag set. -/
def sampleNet (b ch : Nat) : DetectedNetwork :=
  { bssid := [b, b, b, b, b, b], ssid := List.replicate 33 0, rssi := -40, channel := ch,
    authmode := 0, features := zeroFeatures, lastSeen := 0, beaconCount := 1,
    isTarget := false }

/-- A state whose registry holds two entries, neither of them a target. -/
def twoNetState : OinkState :=
  { initialState with networks := [sampleNet 1 6, sampleNet 2 11] }

/-! ## Registry lookup (`oink.cpp` lines 414-421) -/

/-- The loop of `OinkMode::findNetwork` from index `i` on; `bssid` is the six bytes
the argument points to, `memcmp(..., 6) == 0` is equality of the six bytes. -/
def findNetworkFrom (bssid : List Nat) : List DetectedNetwork → Nat → Int
  | [], _ => -1
  | n :: rest, i => if n.bssid = bssid then (i : Int) else findNetworkFrom bssid rest (i + 1)

/-- The function `OinkMode::findNetwork`. -/
def findNetwork (s : OinkState) (bssid : List Nat) : Int :=
  findNetworkFrom bssid s.networks 0

/-! ## EAPOL correlator (`oink.cpp` lines 329-389) -/

/-- The 16-bit value `(payload[5] << 8) | payload[6]`. -/
def keyInfoOf (payload : Buf) : Nat :=
  ((rd payload 5 <<< 8) ||| rd payload 6) % 65536

/-- The message number computed from the key-info field (lines 342-352). -/
def messageNumOf (keyInfo : Nat) : Nat :=
  let install := (keyInfo >>> 6) &&& 1
  let keyAck := (keyInfo >>> 7) &&& 1
  let keyMic := (keyInfo >>> 8) &&& 1
  let secure := (keyInfo >>> 9) &&& 1
  if keyAck ≠ 0 ∧ keyMic = 0 then 1
  else if keyAck = 0 ∧ keyMic ≠ 0 ∧ install = 0 then 2
  else if keyAck ≠ 0 ∧ keyMic ≠ 0 ∧ install ≠ 0 then 3
  else if keyAck = 0 ∧ keyMic ≠ 0 ∧ secure ≠ 0 then 4
  else 0

/-- What `strncpy(dst, src, n)` writes to `dst[0 .. n)`: the characters of `src` before
its first NUL, at most `n` of them, padded with NULs. -/
def strncpy (src : List Nat) (n : Nat) : List Nat :=
  let cs := (src.takeWhile (fun c => c != 0)).take n
  cs ++ List.replicate (n - cs.length) 0

/-- The function `OinkMode::processEAPOL`. -/
def processEAPOL (s : OinkState) (payload : Buf) (len : Nat) (srcMac dstMac : Buf)
    (now : Nat) : OinkState :=
  if len < 4 then s
  else
    let type := rd payload 1
    if type ≠ 3 then s
    else if len < 99 then s
    else
      let messageNum := messageNumOf (keyInfoOf payload)
      if messageNum = 0 then s
      else
        let bssid :=
          if messageNum = 1 ∨ messageNum = 3 then readMac srcMac else readMac dstMac
        let station :=
          if messageNum = 1 ∨ messageNum = 3 then readMac dstMac else readMac srcMac
        let copyLen := min 512 len
        let netIdx := findNetwork s bssid
        let ssid :=
          if 0 ≤ netIdx then
            match s.networks[netIdx.toNat]? with
            | some n => strncpy n.ssid 32 ++ [0]
            | none => List.replicate 33 0
          else List.replicate 33 0
        let hs : CapturedHandshake :=
          { bssid := bssid, station := station, ssid := ssid,
            eapolData := readBytes payload copyLen ++ List.replicate (512 - copyLen) 0,
            eapolLen := copyLen, messageNum := messageNum, timestamp := now,
            complete := false }
        { s with handshakes := s.handshakes ++ [hs],
                 handshakeEvents := s.handshakeEvents + 1 }

/-- A 99-byte EAPOL-Key payload (version 2, type 3, body length 95, descriptor 2)
whose key-info field has the given high and low byte. -/
def keyFrame (hi lo : Nat) : Buf :=
  ofList ([2, 3, 0, 95, 2, hi, lo] ++ List.replicate 92 0)

/-- A buffer holding one hardware address, all six bytes equal to `b`. -/
def macBuf (b : Nat) : Buf := ofList [b, b, b, b, b, b]

/-! ## Beacon features (`features.cpp` lines 70-93 and 184-240) -/

/-- The function `FeatureExtractor::parseBeaconInterval`. -/
def parseBeaconInterval (frame : Buf) (len : Nat) : Nat :=
  if len < 34 then 100 else (rd frame 32 ||| (rd frame 33 <<< 8)) % 65536

/-- The function `FeatureExtractor::parseCapability`. -/
def parseCapability (frame : Buf) (len : Nat) : Nat :=
  if len < 36 then 0 else (rd frame 34 ||| (rd frame 35 <<< 8)) % 65536

/-- The `switch (id)` of `FeatureExtractor::parseIEs` (lines 206-236): the effect of one
consumed element, found at `offset` with identifier `id` and length `ieLen`. -/
def applyIE (frame : Buf) (offset id ieLen : Nat) (features : WiFiFeatures) : WiFiFeatures :=
  if id = 0 then
    if ieLen = 0 ∨ rd frame (offset + 2) = 0 then { features with isHidden := true }
    else features
  else if id = 1 then { features with supportedRates := ieLen }
  else if id = 45 then { features with htCapabilities := 1 }
  else if id = 191 then { features with vhtCapabilities := 1 }
  else if id = 221 then
    let counted := { features with vendorIECount := (features.vendorIECount + 1) % 256 }
    if 4 ≤ ieLen then
      if rd frame (offset + 2) = 0x00 ∧ rd frame (offset + 3) = 0x50
          ∧ rd frame (offset + 4) = 0xF2 ∧ rd frame (offset + 5) = 0x04 then
        { counted with hasWPS := true }
      else counted
    else counted
  else features

/-- The `while` loop of `FeatureExtractor::parseIEs` (lines 200-239), one unit of fuel
per iteration, entered with the given `offset`. -/
def parseIEsLoop : Nat → Buf → Nat → Nat → WiFiFeatures → Option WiFiFeatures
  | 0, _, _, _, _ => none
  | fuel + 1, frame, len, offset, features =>
    if offset + 2 < len then
      let id := rd frame offset
      let ieLen := rd frame (offset + 1)
      if offset + 2 + ieLen > len then some features
      else
        parseIEsLoop fuel frame len ((offset + 2 + ieLen) % 65536)
          (applyIE frame offset id ieLen features)
    else some features

/-- The function `FeatureExtractor::parseIEs`. -/
def parseIEs (fuel : Nat) (frame : Buf) (len : Nat) (features : WiFiFeatures) :
    Option WiFiFeatures :=
  parseIEsLoop fuel frame len 36 features

/-- The function `FeatureExtractor::extractFromBeacon`. -/
def extractFromBeacon (fuel : Nat) (frame : Buf) (len : Nat) (rssi : Int) :
    Option WiFiFeatures :=
  if len < 36 then some zeroFeatures
  else
    let f1 := { zeroFeatures with rssi := rssi, noise := -95, snr := rssi - (-95) }
    let f2 := { f1 with beaconInterval := parseBeaconInterval frame len }
    let f3 := { f2 with capability := parseCapability frame len }
    let f4 := { f3 with isHidden := (f3.capability &&& 1 == 0), hasWPS := false }
    parseIEs fuel frame len f4

/-- The byte indices the `switch (id)` of `parseIEs` reads for one consumed element,
following the short-circuit evaluation of `||` and `&&`. -/
def applyIEReads (frame : Buf) (offset id ieLen : Nat) : List Nat :=
  if id = 0 then
    if ieLen = 0 then [] else [offset + 2]
  else if id = 221 then
    if 4 ≤ ieLen then
      if rd frame (offset + 2) = 0x00 then
        if rd frame (offset + 3) = 0x50 then
          if rd frame (offset + 4) = 0xF2 then [offset + 2, offset + 3, offset + 4, offset + 5]
          else [offset + 2, offset + 3, offset + 4]
        else [offset + 2, offset + 3]
      else [offset + 2]
    else []
  else []

/-- What one run of the loop of `parseIEs` did, besides computing the features: the
consumed elements as (offset, length), in order, and the byte indices read, in order. -/
structure IEWalk where
  features : WiFiFeatures
  consumed : List (Nat × Nat)
  reads : List Nat
  deriving DecidableEq, Repr

/-- The loop of `parseIEs` once more, recording the consumed elements and the reads. -/
def parseIEsWalk : Nat → Buf → Nat → Nat → WiFiFeatures → Option IEWalk
  | 0, _, _, _, _ => none
  | fuel + 1, frame, len, offset, features =>
    if offset + 2 < len then
      let id := rd frame offset
      let ieLen := rd frame (offset + 1)
      if offset + 2 + ieLen > len then
        some { features := features, consumed := [], reads := [offset, offset + 1] }
      else
        match parseIEsWalk fuel frame len ((offset + 2 + ieLen) % 65536)
            (applyIE frame offset id ieLen features) with
        | some w =>
          some { features := w.features,
                 consumed := (offset, ieLen) :: w.consumed,
                 reads := [offset, offset + 1] ++ applyIEReads frame offset id ieLen ++ w.reads }
        | none => none
    else some { features := features, consumed := [], reads := [] }

/-- Where consecutive elements of the given lengths start, the first one at `offset`. -/
def spanStarts (offset : Nat) : List Nat → List Nat
  | [] => []
  | l :: ls => offset :: spanStarts (offset + 2 + l) ls

/-- The bytes taken up by elements of the given lengths (two header bytes each). -/
def spanTotal (lens : List Nat) : Nat := (lens.map (fun l => 2 + l)).sum

/-! ## Beacon processing (`oink.cpp` lines 224-290) -/

/-- The first `while` loop of `OinkMode::processBeacon` (lines 243-256): the SSID walk,
acting on the entry under construction. -/
def ssidWalk : Nat → Buf → Nat → Nat → DetectedNetwork → Option DetectedNetwork
  | 0, _, _, _, _ => none
  | fuel + 1, payload, len, offset, net =>
    if offset + 2 < len then
      let id := rd payload offset
      let ieLen := rd payload (offset + 1)
      if offset + 2 + ieLen > len then some net
      else if id = 0 ∧ ieLen > 0 ∧ ieLen < 33 then
        some { net with
          ssid := readBytes (shift payload (offset + 2)) ieLen
                    ++ (0 :: net.ssid.drop (ieLen + 1)) }
      else ssidWalk fuel payload len ((offset + 2 + ieLen) % 65536) net
    else some net

/-- The second `while` loop of `OinkMode::processBeacon` (lines 263-273): the walk for
the DS Parameter Set element. -/
def channelWalk : Nat → Buf → Nat → Nat → DetectedNetwork → Option DetectedNetwork
  | 0, _, _, _, _ => none
  | fuel + 1, payload, len, offset, net =>
    if offset + 2 < len then
      let id := rd payload offset
      let ieLen := rd payload (offset + 1)
      if id = 3 ∧ ieLen = 1 then some { net with channel := rd payload (offset + 2) }
      else channelWalk fuel payload len ((offset + 2 + ieLen) % 65536) net
    else some net

/-- The function `OinkMode::processBeacon`; each of its loops (and the loop of
`parseIEs`) may use up to `fuel` iterations. -/
def processBeacon (fuel : Nat) (s : OinkState) (payload : Buf) (len : Nat) (rssi : Int)
    (now : Nat) : Option OinkState :=
  if len < 36 then some s
  else
    let bssid := readMac (shift payload 16)
    let idx := findNetwork s bssid
    if idx < 0 then
      let net0 : DetectedNetwork :=
        { bssid := bssid, ssid := List.replicate 33 0, rssi := rssi, channel := 0,
          authmode := 0, features := zeroFeatures, lastSeen := now, beaconCount := 1,
          isTarget := false }
      (ssidWalk fuel payload len 36 net0).bind fun net1 =>
      (extractFromBeacon fuel payload len rssi).bind fun feats =>
      (channelWalk fuel payload len 36 { net1 with features := feats }).bind fun net2 =>
      let net3 := if net2.channel = 0 then { net2 with channel := s.currentChannel } else net2
      some { s with networks := s.networks ++ [net3],
                    newNetworkEvents := s.newNetworkEvents + 1 }
    else
      some { s with
        networks :=
          modifyNth
            (fun n => { n with rssi := rssi, lastSeen := now,
                               beaconCount := (n.beaconCount + 1) % 65536 })
            s.networks idx.toNat }

/-- The wire form of a sequence of elements given as (identifier, value bytes). -/
def encodeIEs : List (Nat × List Nat) → List Nat
  | [] => []
  | (id, value) :: rest => id :: value.length :: (value ++ encodeIEs rest)

/-- The buffer holds the given bytes from index `offset` on. -/
def holdsAt (p : Buf) (offset : Nat) (bytes : List Nat) : Prop :=
  ∀ i, i < bytes.length → rd p (offset + i) = bytes.getD i 0

/-- A 36-byte beacon header: frame control `80 00`, BSSID (bytes 16..21) six times `b`,
capability (bytes 34..35) `capLo 00`, every other byte zero. -/
def beaconHeader (b capLo : Nat) : List Nat :=
  [0x80, 0] ++ List.replicate 14 0 ++ List.replicate 6 b ++ List.replicate 12 0 ++ [capLo, 0]

/-- A beacon buffer: the header above followed by the given element bytes. -/
def beaconFrame (b capLo : Nat) (ies : List Nat) : Buf := ofList (beaconHeader b capLo ++ ies)

/-! ## Mode control and channel hopping (`oink.cpp` lines 27-118 and 149-176) -/

/-- The table `CHANNEL_HOP_ORDER`. -/
def CHANNEL_HOP_ORDER : List Nat := [1, 6, 11, 2, 3, 4, 5, 7, 8, 9, 10, 12, 13]

/-- The constant `CHANNEL_COUNT`, `sizeof(CHANNEL_HOP_ORDER)`. -/
def CHANNEL_COUNT : Nat := CHANNEL_HOP_ORDER.length

/-- Subtraction of two `uint32_t` values, as in `now - lastSeen`. -/
def u32sub (a b : Nat) : Nat :=
  (a % 4294967296 + 4294967296 - b % 4294967296) % 4294967296

/-- The function `OinkMode::init`. -/
def init (s : OinkState) : OinkState :=
  { s with networks := [], handshakes := [], targetIndex := -1, packetCount := 0,
           deauthCount := 0 }

/-- The function `OinkMode::start`. -/
def start (s : OinkState) (now : Nat) : OinkState :=
  if s.running then s
  else
    { s with promiscuous := true, radioChannel := s.currentChannel, running := true,
             scanning := true, lastHopTime := now, lastScanTime := now }

/-- The function `OinkMode::stop`. -/
def stop (s : OinkState) : OinkState :=
  if !s.running then s
  else { s with deauthing := false, scanning := false, promiscuous := false, running := false }

/-- The function `OinkMode::hopChannel`. -/
def hopChannel (s : OinkState) : OinkState :=
  let idx := (s.currentHopIndex + 1) % CHANNEL_COUNT
  let ch := CHANNEL_HOP_ORDER.getD idx 0
  { s with currentHopIndex := idx, currentChannel := ch, radioChannel := ch }

/-- The channels set by `n` successive calls of `hopChannel`, in order. -/
def hopTrace : Nat → OinkState → List Nat
  | 0, _ => []
  | n + 1, s => (hopChannel s).currentChannel :: hopTrace n (hopChannel s)

/-- The erase loop of `OinkMode::update` (lines 97-103), front to back. -/
def sweepStale (now : Nat) : List DetectedNetwork → List DetectedNetwork
  | [] => []
  | n :: rest =>
    if u32sub now n.lastSeen > 60000 then sweepStale now rest
    else n :: sweepStale now rest

/-- The channel-hopping block of `OinkMode::update` (lines 87-93); `hopInterval` is
`Config::wifi().channelHopInterval`. -/
def updateHop (s : OinkState) (now hopInterval : Nat) : OinkState :=
  if s.channelHopping && !s.deauthing then
    if u32sub now s.lastHopTime > hopInterval then { hopChannel s with lastHopTime := now }
    else s
  else s

/-- The cleanup block of `OinkMode::update` (lines 95-105). -/
def updateSweep (s : OinkState) (now : Nat) : OinkState :=
  if u32sub now s.lastScanTime > 30000 then
    { s with networks := sweepStale now s.networks, lastScanTime := now }
  else s

/-- The function `OinkMode::update`: the two blocks above, one after the other. -/
def update (s : OinkState) (now hopInterval : Nat) : OinkState :=
  if !s.running then s
  else updateSweep (updateHop s now hopInterval) now

/-- The function `OinkMode::startScan`. -/
def startScan (s : OinkState) : OinkState :=
  { s with scanning := true, channelHopping := true, currentHopIndex := 0 }

/-- The function `OinkMode::stopScan`. -/
def stopScan (s : OinkState) : OinkState := { s with scanning := false }

/-- The function `OinkMode::startDeauth`. -/
def startDeauth (s : OinkState) : OinkState :=
  if !s.running || s.targetIndex < 0 then s
  else { s with deauthing := true, channelHopping := false }

/-- The function `OinkMode::stopDeauth`. -/
def stopDeauth (s : OinkState) : OinkState := { s with deauthing := false }

/-- The function `OinkMode::enableChannelHop`. -/
def enableChannelHop (s : OinkState) (enable : Bool) : OinkState :=
  { s with channelHopping := enable }

/-! ## Deauthentication frames (`oink.cpp` lines 208-221 and 391-412) -/

/-- What `memcpy(arr + offset, bytes, n)` leaves in the array `arr`. -/
def writeAt (arr : List Nat) (offset : Nat) (bytes : List Nat) : List Nat :=
  arr.take offset ++ bytes ++ arr.drop (offset + bytes.length)

/-- The initial contents of the local array `deauthPacket`. -/
def deauthTemplate : List Nat :=
  [0xC0, 0x00, 0x00, 0x00,
   0xFF, 0xFF, 0xFF, 0xFF, 0xFF, 0xFF,
   0x00, 0x00, 0x00, 0x00, 0x00, 0x00,
   0x00, 0x00, 0x00, 0x00, 0x00, 0x00,
   0x00, 0x00, 0x07, 0x00]

/-- The 26 bytes `OinkMode::sendDeauthFrame` hands to `esp_wifi_80211_tx`; `reason` is a
`uint8_t`. -/
def deauthPacket (bssid station : Buf) (reason : Nat) : List Nat :=
  let p1 := writeAt deauthTemplate 4 (readMac station)
  let p2 := writeAt p1 10 (readMac bssid)
  let p3 := writeAt p2 16 (readMac bssid)
  writeAt p3 24 [reason % 256]

/-- The function `OinkMode::sendDeauthFrame`. -/
def sendDeauthFrame (s : OinkState) (bssid station : Buf) (reason : Nat) : OinkState :=
  { s with txFrames := s.txFrames ++ [deauthPacket bssid station reason] }

/-- The last block of `OinkMode::promiscuousCallback` (lines 208-221).  The access
`networks[targetIndex]` is unchecked in the source: `none` stands for an index outside
the registry. -/
def deauthTick (s : OinkState) (now : Nat) : Option OinkState :=
  if s.deauthing && decide (0 ≤ s.targetIndex) then
    if u32sub now s.lastDeauth > 100 then
      match s.networks[s.targetIndex.toNat]? with
      | none => none
      | some target =>
        let s1 := sendDeauthFrame s (ofList target.bssid)
          (ofList [0xFF, 0xFF, 0xFF, 0xFF, 0xFF, 0xFF]) 7
        some { s1 with deauthCount := (s1.deauthCount + 1) % 4294967296, lastDeauth := now }
    else some s
  else some s

/-! ## Data frames (`oink.cpp` lines 178-222 and 292-327) -/

/-- The header offset computed by `OinkMode::processDataFrame` (lines 299-311); it is
at most 32, so it needs no reducing to 16 bits. -/
def dataOffset (payload : Buf) : Nat :=
  let toDs := rd payload 1 &&& 0x01
  let fromDs := (rd payload 1 &&& 0x02) >>> 1
  let offset0 := 24
  let offset1 := if toDs ≠ 0 ∧ fromDs ≠ 0 then offset0 + 6 else offset0
  if rd payload 0 &&& 0x80 ≠ 0 ∧ rd payload 0 &&& 0x08 ≠ 0 then offset1 + 2 else offset1

/-- The test for the LLC/SNAP header of EAPOL in `processDataFrame` (lines 316-319). -/
def llcMatch (payload : Buf) (offset : Nat) : Bool :=
  decide (rd payload offset = 0xAA ∧ rd payload (offset + 1) = 0xAA
    ∧ rd payload (offset + 2) = 0x03 ∧ rd payload (offset + 3) = 0x00
    ∧ rd payload (offset + 4) = 0x00 ∧ rd payload (offset + 5) = 0x00
    ∧ rd payload (offset + 6) = 0x88 ∧ rd payload (offset + 7) = 0x8E)

/-- The function `OinkMode::processDataFrame`.  The length passed on is at most `len`,
so it needs no reducing to 16 bits. -/
def processDataFrame (s : OinkState) (payload : Buf) (len : Nat) (_rssi : Int)
    (now : Nat) : OinkState :=
  if len < 28 then s
  else
    let offset := dataOffset payload
    if offset + 8 > len then s
    else if llcMatch payload offset then
      processEAPOL s (shift payload (offset + 8)) (len - offset - 8)
        (shift payload 10) (shift payload 4) now
    else s

/-- The eight bytes `AA AA 03 00 00 00 88 8E`: LLC/SNAP header and EAPOL ether type. -/
def llcSnapEapol : List Nat := [0xAA, 0xAA, 0x03, 0x00, 0x00, 0x00, 0x88, 0x8E]

/-- The header length as the specification words it: 24, plus 6 when the ToDS and
FromDS bits (bits 0 and 1 of byte 1) are both set, plus 2 when bits `0x80` and `0x08`
(bits 7 and 3) of byte 0 are both set. -/
def headerLength (payload : Buf) : Nat :=
  24 + (if (rd payload 1).testBit 0 = true ∧ (rd payload 1).testBit 1 = true then 6 else 0)
    + (if (rd payload 0).testBit 7 = true ∧ (rd payload 0).testBit 3 = true then 2 else 0)

/-- The indices read by a chain `p[o] == e0 && p[o+1] == e1 && ...`, which stops at the
first mismatch. -/
def matchReads (payload : Buf) : Nat → List Nat → List Nat
  | _, [] => []
  | offset, e :: es =>
    offset :: (if rd payload offset = e then matchReads payload (offset + 1) es else [])

/-- The indices of its payload that `processEAPOL` reads, and whether it reads the two
addresses it is given. -/
def processEAPOLReads (payload : Buf) (len : Nat) : List Nat × Bool :=
  if len < 4 then ([], false)
  else if rd payload 1 ≠ 3 then ([1], false)
  else if len < 99 then ([1], false)
  else if messageNumOf (keyInfoOf payload) = 0 then ([1, 5, 6], false)
  else ([1, 5, 6] ++ List.range (min 512 len), true)

/-- The indices of the frame that `processDataFrame` reads, itself or through the call
of `processEAPOL`. -/
def processDataFrameReads (payload : Buf) (len : Nat) : List Nat :=
  if len < 28 then []
  else
    let control := [1, 1] ++ (if rd payload 0 &&& 0x80 ≠ 0 then [0, 0] else [0])
    let offset := dataOffset payload
    if offset + 8 > len then control
    else
      let window := matchReads payload offset llcSnapEapol
      if llcMatch payload offset then
        let inner := processEAPOLReads (shift payload (offset + 8)) (len - offset - 8)
        control ++ window ++ inner.1.map (fun i => offset + 8 + i)
          ++ (if inner.2 then [10, 11, 12, 13, 14, 15, 4, 5, 6, 7, 8, 9] else [])
      else control ++ window

/-- The values of `wifi_promiscuous_pkt_type_t`. -/
inductive PktType where
  | mgmt
  | ctrl
  | data
  | misc
  deriving DecidableEq, Repr

/-- The function `OinkMode::promiscuousCallback`; `payload`, `len` and `rssi` are the
fields of the packet handed in.  The result is `none` when a loop of `processBeacon`
runs out of fuel or `deauthTick` indexes outside the registry. -/
def promiscuousCallback (fuel : Nat) (s : OinkState) (payload : Buf) (len : Nat)
    (rssi : Int) (type : PktType) (now : Nat) : Option OinkState :=
  if !s.running then some s
  else if len < 24 then some s
  else
    let s1 := { s with packetCount := (s.packetCount + 1) % 4294967296 }
    let frameSubtype := (rd payload 0 >>> 4) &&& 0x0F
    let handled : Option OinkState :=
      match type with
      | PktType.mgmt =>
        if frameSubtype = 0x08 then processBeacon fuel s1 payload len rssi now else some s1
      | PktType.data => some (processDataFrame s1 payload len rssi now)
      | _ => some s1
    handled.bind fun s2 => deauthTick s2 now

/-- A running state locked on entry 0 of a two-entry registry: `selectTarget(0)`. -/
def lockedState : OinkState := selectTarget { twoNetState with running := true } 0

/-- The state after `startDeauth()` in the state above. -/
def deauthingState : OinkState := startDeauth lockedState

/-- A running state whose two registry entries were last seen at 1000 and at 40000. -/
def sweepState : OinkState :=
  { initialState with
    running := true,
    networks := [{ sampleNet 1 6 with lastSeen := 1000 },
                 { sampleNet 2 11 with lastSeen := 40000 }] }

/-- The C string held in a `char` array: the bytes before the first NUL. -/
def cString (l : List Nat) : List Nat := l.takeWhile (fun c => c != 0)

/-- The bytes of the name `TestNet`. -/
def testNetName : List Nat := [84, 101, 115, 116, 78, 101, 116]

/-- The access point address `AA:BB:CC:DD:EE:FF`. -/
def apAddress : List Nat := [0xAA, 0xBB, 0xCC, 0xDD, 0xEE, 0xFF]

/-- The station address `11:22:33:44:55:66`. -/
def staAddress : List Nat := [0x11, 0x22, 0x33, 0x44, 0x55, 0x66]

/-- A 54-byte beacon from `AA:BB:CC:DD:EE:FF`: broadcast destination, capability
`0x0411`, then the elements SSID `TestNet`, supported rates (4 values) and DS Parameter
Set 6. -/
def scenarioBeacon : Buf :=
  ofList ([0x80, 0, 0, 0] ++ List.replicate 6 0xFF ++ apAddress ++ apAddress ++ [0, 0]
    ++ List.replicate 8 0 ++ [100, 0] ++ [0x11, 0x04]
    ++ [0, 7] ++ testNetName ++ [1, 4, 0x82, 0x84, 0x8B, 0x96] ++ [3, 1, 6])

/-- The bytes of a 131-byte data frame (FromDS) from `AA:BB:CC:DD:EE:FF` to
`11:22:33:44:55:66`: 24-byte header, LLC/SNAP header of EAPOL, and a 99-byte EAPOL-Key
payload with key-info `0x008A` (Ack set, MIC clear). -/
def scenarioDataBytes : List Nat :=
  [0x08, 0x02, 0, 0] ++ staAddress ++ apAddress ++ apAddress ++ [0, 0]
    ++ llcSnapEapol ++ [2, 3, 0, 95, 2, 0, 138] ++ List.replicate 92 0

/-- The data frame above as a buffer. -/
def scenarioData : Buf := ofList scenarioDataBytes

/-- A frame with first byte `80` (beacon), `22` at index 1, `DC` at index 37 and `FF`
everywhere else: read as elements, the one at offset 0 takes 36 bytes, the one at offset
36 takes 222 bytes and every later one 257 bytes. -/
def edgeBeacon : Buf :=
  fun i => if i = 0 then 0x80 else if i = 1 then 34 else if i = 37 then 220 else 0xFF

/-! ## Sequences of operations -/

/-- One call into `OinkMode`, with its arguments (and the value `millis()` has during
the call). -/
inductive Op where
  | start (now : Nat)
  | stop
  | update (now hopInterval : Nat)
  | selectTarget (index : Int)
  | clearTarget
  | startDeauth
  | stopDeauth
  | startScan
  | stopScan
  | enableChannelHop (enable : Bool)
  | beacon (fuel : Nat) (payload : Buf) (len : Nat) (rssi : Int) (now : Nat)
  | dataFrame (payload : Buf) (len : Nat) (rssi : Int) (now : Nat)
  | callback (fuel : Nat) (payload : Buf) (len : Nat) (rssi : Int) (type : PktType) (now : Nat)

/-- The state after one call; `none` when the call yields no state (see `processBeacon`
and `deauthTick`). -/
def applyOp (s : OinkState) : Op → Option OinkState
  | Op.start now => some (start s now)
  | Op.stop => some (stop s)
  | Op.update now hopInterval => some (update s now hopInterval)
  | Op.selectTarget index => some (selectTarget s index)
  | Op.clearTarget => some (clearTarget s)
  | Op.startDeauth => some (startDeauth s)
  | Op.stopDeauth => some (stopDeauth s)
  | Op.startScan => some (startScan s)
  | Op.stopScan => some (stopScan s)
  | Op.enableChannelHop enable => some (enableChannelHop s enable)
  | Op.beacon fuel payload len rssi now => processBeacon fuel s payload len rssi now
  | Op.dataFrame payload len rssi now => some (processDataFrame s payload len rssi now)
  | Op.callback fuel payload len rssi type now =>
    promiscuousCallback fuel s payload len rssi type now

/-- The state after a sequence of calls, first to last. -/
def run : List Op → OinkState → Option OinkState
  | [], s => some s
  | op :: rest, s => (applyOp s op).bind (run rest)

/-- The default of `wifi.maxNetworks` (`config.cpp` line 104). -/
def maxNetworksDefault : Nat := 50

/-- A 39-byte beacon from the address made of six bytes `b`, with a DS Parameter Set
element of value 6, received at time `now`. -/
def beaconOp (b now : Nat) : Op :=
  Op.beacon 39 (beaconFrame b 1 [3, 1, 6]) 39 (-40) now

/-- Mode start at time 0, then one beacon from each of the addresses `01:..:01` to
`33:..:33` (51 addresses), all at time 1000. -/
def manyBeacons : List Op :=
  Op.start 0 :: (List.range' 1 51).map (fun b => beaconOp b 1000)

/-- Mode start at time 0, then one beacon from each of the addresses `01:..:01` to
`32:..:32` (50 addresses), all at time 1000. -/
def fiftyBeacons : List Op :=
  Op.start 0 :: (List.range' 1 50).map (fun b => beaconOp b 1000)

/-- The state after the calls of `fiftyBeacons`: a registry of 50 entries. -/
def fullRegistry : OinkState := (run fiftyBeacons (init initialState)).getD initialState

/-- Mode start at time 0, a beacon from `0A:..:0A` at 1000 and one from `0B:..:0B` at
50000: a registry of two entries, the first of which is stale at time 100000. -/
def twoBeacons : List Op :=
  [Op.start 0, beaconOp 10 1000, beaconOp 11 50000]

/-- The state after the calls of `twoBeacons`. -/
def afterTwoBeacons : OinkState := (run twoBeacons (init initialState)).getD initialState

/-! ## Stub classifier (`inference.cpp` lines 48-76 and 93-155) -/

/-- The enumeration `MLLabel`. -/
inductive MLLabel where
  | NORMAL
  | ROGUE_AP
  | EVIL_TWIN
  | DEAUTH_TARGET
  | VULNERABLE
  | UNKNOWN
  deriving DecidableEq, Repr

/-- The record `MLResult`; a `float` is a rational number here (no NaN, no infinity). -/
structure MLResult where
  label : MLLabel
  confidence : ℚ
  scores : List ℚ
  inferenceTimeUs : Nat
  valid : Bool
  deriving DecidableEq, Repr

/-- The function `MLInference::runInference`; `input` is the memory behind the
pointer, `startTime` and `endTime` are the two values of `micros()`. -/
def runInference (input : Nat → ℚ) (size startTime endTime : Nat) : MLResult :=
  let result0 : MLResult :=
    { label := MLLabel.NORMAL, confidence := 0, scores := [1/2, 1/10, 1/10, 1/5, 1/10],
      inferenceTimeUs := 0, valid := true }
  let result1 : MLResult :=
    if size ≥ 10 then
      let rssi := input 0
      let beaconInterval := input 5
      let hasWPA2 := decide (input 10 > 1/2)
      let isHidden := decide (input 12 > 1/2)
      if rssi > -30 ∧ beaconInterval < 50 then
        { result0 with label := MLLabel.ROGUE_AP,
                       scores := [1/5, 7/10, 1/20, 3/100, 1/50], confidence := 7/10 }
      else if isHidden = true ∧ hasWPA2 = false then
        { result0 with label := MLLabel.VULNERABLE,
                       scores := [1/10, 1/10, 3/20, 1/20, 3/5], confidence := 3/5 }
      else if hasWPA2 = false ∧ input 9 > 1/2 then
        { result0 with label := MLLabel.DEAUTH_TARGET,
                       scores := [1/5, 1/10, 1/10, 1/2, 1/10], confidence := 1/2 }
      else
        { result0 with label := MLLabel.NORMAL,
                       scores := [4/5, 1/20, 1/20, 1/20, 1/20], confidence := 4/5 }
    else result0
  { result1 with inferenceTimeUs := u32sub endTime startTime }

/-- The indices of `input` that `runInference` reads, in order (`input[9]` only where
the chain of conditions gets to it). -/
def runInferenceReads (input : Nat → ℚ) (size : Nat) : List Nat :=
  if size ≥ 10 then
    [0, 5, 10, 12]
      ++ (if input 0 > -30 ∧ input 5 < 50 then []
          else if decide (input 12 > 1/2) = true ∧ decide (input 10 > 1/2) = false then []
          else if decide (input 10 > 1/2) = false then [9]
          else [])
  else []

/-- The static members of `MLInference` that `classify` uses. -/
structure MLState where
  modelLoaded : Bool
  inferenceCount : Nat
  avgInferenceTime : Nat
  deriving DecidableEq, Repr

/-- The function `MLInference::classify`: both branches call `runInference`; the
counters are `uint32_t` (the division is by the new count, as in the source). -/
def classify (m : MLState) (features : Nat → ℚ) (featureCount startTime endTime : Nat) :
    MLResult × MLState :=
  let result := runInference features featureCount startTime endTime
  let count := (m.inferenceCount + 1) % 4294967296
  let total :=
    (m.avgInferenceTime * u32sub count 1 % 4294967296 + result.inferenceTimeUs) % 4294967296
  (result, { m with inferenceCount := count, avgInferenceTime := total / count })

/-- The indices of `features` that `classify` reads: those read by `runInference`. -/
def classifyReads (features : Nat → ℚ) (featureCount : Nat) : List Nat :=
  runInferenceReads features featureCount

/-- A feature array of ten values, signal strength -50 and nine zeros; what lies
behind the array is zero as well. -/
def tenQuiet : Nat → ℚ := fun i => if i = 0 then -50 else 0

/-- The same ten values, with the value 1 two places behind the array, at index 12. -/
def tenQuietThenOne : Nat → ℚ := fun i => if i = 0 then -50 else if i = 12 then 1 else 0

/-- The record stored for the 99-byte key frame with key-info `0x008A`, sent from
`11:11:11:11:11:11` to `AA:AA:AA:AA:AA:AA` at time 5, when the registry is empty. -/
def m1Record : CapturedHandshake :=
  { bssid := [17, 17, 17, 17, 17, 17], station := [170, 170, 170, 170, 170, 170],
    ssid := List.replicate 33 0,
    eapolData := [2, 3, 0, 95, 2, 0, 138] ++ List.replicate 505 0,
    eapolLen := 99, messageNum := 1, timestamp := 5, complete := false }

/-! ## Theorems -/

/-- C1 (code at the failing input): on a registry of two unflagged entries,
`selectTarget(0)` followed by `selectTarget(1)` leaves BOTH entries with the target
flag set (the first selection is never cleared), and a later `clearTarget()` still
leaves entry 0 flagged although no target is selected. -/
theorem C1_selectTarget_leaves_stale_flag :
    (selectTarget (selectTarget twoNetState 0) 1).networks.map (fun n => n.isTarget)
        = [true, true]
      ∧ targetCount (selectTarget (selectTarget twoNetState 0) 1) = 2
      ∧ (selectTarget (selectTarget twoNetState 0) 1).targetIndex = 1
      ∧ (clearTarget (selectTarget (selectTarget twoNetState 0) 1)).networks.map
          (fun n => n.isTarget) = [true, false]
      ∧ (clearTarget (selectTarget (selectTarget twoNetState 0) 1)).targetIndex = -1 := by
  decide

/-- Changing one element keeps the length. -/
theorem modifyNth_length {α : Type} (f : α → α) (l : List α) (n : Nat) :
    (modifyNth f l n).length = l.length := by
  induction l generalizing n with
  | nil => rfl
  | cons x xs ih => cases n <;> simp [modifyNth, ih]

/-- The changed element. -/
theorem modifyNth_getElem?_eq {α : Type} (f : α → α) (l : List α) (n : Nat) :
    (modifyNth f l n)[n]? = (l[n]?).map f := by
  induction l generalizing n with
  | nil => rfl
  | cons x xs ih => cases n <;> simp [modifyNth, ih]

/-- The other elements. -/
theorem modifyNth_getElem?_ne {α : Type} (f : α → α) (l : List α) (n m : Nat) (h : m ≠ n) :
    (modifyNth f l n)[m]? = l[m]? := by
  induction l generalizing n m with
  | nil => rfl
  | cons x xs ih =>
    cases n <;> cases m <;> simp_all [modifyNth]

/-- The function `setChannel` leaves the registry and the target index alone. -/
theorem setChannel_networks (s : OinkState) (ch : Nat) :
    (setChannel s ch).networks = s.networks ∧ (setChannel s ch).targetIndex = s.targetIndex := by
  unfold setChannel
  split_ifs <;> exact ⟨rfl, rfl⟩

/-- The registry and target index after `selectTarget` with a valid index. -/
theorem selectTarget_valid (s : OinkState) (i : Nat) (hi : i < s.networks.length) :
    (selectTarget s i).networks
        = modifyNth (fun n => { n with isTarget := true }) s.networks i
      ∧ (selectTarget s i).targetIndex = i := by
  have hv : 0 ≤ (i : Int) ∧ (i : Int) < (s.networks.length : Int) := by
    constructor <;> omega
  unfold selectTarget
  simp only [hv, and_self, if_true, Int.toNat_ofNat]
  split
  · exact setChannel_networks _ _
  · exact ⟨rfl, rfl⟩

/-- Selecting a target never clears a flag: after `selectTarget(x)` and then
`selectTarget(y)`, for any two valid indices, the entries `x` and `y` both carry the
target flag. -/
theorem selectTarget_twice_flags_both (s : OinkState) (x y : Nat)
    (hx : x < s.networks.length) (hy : y < s.networks.length) :
    ((selectTarget (selectTarget s x) y).networks[x]?).map (fun n => n.isTarget) = some true
      ∧ ((selectTarget (selectTarget s x) y).networks[y]?).map (fun n => n.isTarget)
          = some true
      ∧ (selectTarget (selectTarget s x) y).targetIndex = y := by
  obtain ⟨h1, -⟩ := selectTarget_valid s x hx
  have hy1 : y < (selectTarget s x).networks.length := by
    rw [h1, modifyNth_length]; exact hy
  obtain ⟨h2, h3⟩ := selectTarget_valid (selectTarget s x) y hy1
  refine ⟨?_, ?_, h3⟩
  · rw [h2]
    by_cases hxy : x = y
    · subst hxy
      rw [modifyNth_getElem?_eq, List.getElem?_eq_getElem hy1]
      rfl
    · rw [modifyNth_getElem?_ne _ _ _ _ hxy, h1, modifyNth_getElem?_eq,
        List.getElem?_eq_getElem hx]
      rfl
  · rw [h2, modifyNth_getElem?_eq, List.getElem?_eq_getElem hy1]
    rfl

/-! ## EAPOL classification -/

/-- Shifting right by `i` and masking with 1 extracts bit `i`. -/
theorem shift_mask_eq (k i : Nat) : (k >>> i) &&& 1 = if k.testBit i then 1 else 0 := by
  simp only [Nat.testBit, Nat.and_one_is_mod, Nat.one_and_eq_mod_two]
  rcases Nat.mod_two_eq_zero_or_one (k >>> i) with h | h <;> simp [h]

/-- The key-info field is the big-endian 16-bit number made of bytes 5 and 6. -/
theorem keyInfoOf_eq (payload : Buf) :
    keyInfoOf payload = 256 * rd payload 5 + rd payload 6 := by
  have h5 : rd payload 5 < 256 := Nat.mod_lt _ (by decide)
  have h6 : rd payload 6 < 2 ^ 8 := Nat.mod_lt _ (by decide)
  have hor := Nat.mul_add_lt_is_or h6 (rd payload 5)
  unfold keyInfoOf
  rw [Nat.shiftLeft_eq, Nat.mul_comm, ← hor]
  have : 2 ^ 8 * rd payload 5 + rd payload 6 < 65536 := by omega
  rw [Nat.mod_eq_of_lt this]
  norm_num

/-- The message number in terms of the four key-info bits. -/
theorem messageNumOf_eq (k : Nat) :
    messageNumOf k =
      if k.testBit 7 = true ∧ k.testBit 8 = false then 1
      else if k.testBit 7 = false ∧ k.testBit 8 = true ∧ k.testBit 6 = false then 2
      else if k.testBit 7 = true ∧ k.testBit 8 = true ∧ k.testBit 6 = true then 3
      else if k.testBit 7 = false ∧ k.testBit 8 = true ∧ k.testBit 9 = true then 4
      else 0 := by
  unfold messageNumOf
  simp only [shift_mask_eq]
  cases k.testBit 6 <;> cases k.testBit 7 <;> cases k.testBit 8 <;> cases k.testBit 9 <;> rfl

/-- The effect of `processEAPOL` on a frame that passes the structural checks and is
given a message number: one record is appended. -/
theorem processEAPOL_accept (s : OinkState) (payload : Buf) (len : Nat) (srcMac dstMac : Buf)
    (now : Nat) (hlen : 99 ≤ len) (htype : rd payload 1 = 3)
    (hm : messageNumOf (keyInfoOf payload) ≠ 0) :
    ∃ hs : CapturedHandshake,
      processEAPOL s payload len srcMac dstMac now =
          { s with handshakes := s.handshakes ++ [hs],
                   handshakeEvents := s.handshakeEvents + 1 }
        ∧ hs.messageNum = messageNumOf (keyInfoOf payload)
        ∧ hs.bssid = (if hs.messageNum = 1 ∨ hs.messageNum = 3
                        then readMac srcMac else readMac dstMac)
        ∧ hs.station = (if hs.messageNum = 1 ∨ hs.messageNum = 3
                        then readMac dstMac else readMac srcMac)
        ∧ hs.eapolLen = min 512 len
        ∧ hs.timestamp = now
        ∧ hs.ssid = (if 0 ≤ findNetwork s hs.bssid then
                       match s.networks[(findNetwork s hs.bssid).toNat]? with
                       | some n => strncpy n.ssid 32 ++ [0]
                       | none => List.replicate 33 0
                     else List.replicate 33 0)
        ∧ hs.eapolData
            = readBytes payload (min 512 len) ++ List.replicate (512 - min 512 len) 0 := by
  have h4 : ¬ len < 4 := by omega
  have h99 : ¬ len < 99 := by omega
  simp only [processEAPOL, h4, h99, htype, hm, if_false, ne_eq, not_true_eq_false]
  exact ⟨_, rfl, rfl, rfl, rfl, rfl, rfl, rfl, rfl⟩

/-- The effect of `processEAPOL` on a frame it declines: nothing. -/
theorem processEAPOL_decline (s : OinkState) (payload : Buf) (len : Nat) (srcMac dstMac : Buf)
    (now : Nat)
    (h : len < 4 ∨ rd payload 1 ≠ 3 ∨ len < 99 ∨ messageNumOf (keyInfoOf payload) = 0) :
    processEAPOL s payload len srcMac dstMac now = s := by
  unfold processEAPOL
  by_cases h4 : len < 4
  · simp [h4]
  · by_cases ht : rd payload 1 = 3
    · by_cases h99 : len < 99
      · simp [h4, ht, h99]
      · have hm : messageNumOf (keyInfoOf payload) = 0 := by
          rcases h with h | h | h | h
          · exact absurd h h4
          · exact absurd ht h
          · exact absurd h h99
          · exact h
        simp [h4, ht, h99, hm]
    · simp [h4, ht]

/-- C2 (what the code does on the claim's inputs): for a payload that passes the
structural checks and whose key-info has Key-Ack = 0, Key-MIC = 1 and Secure = 1, one
record is appended; its message number is 2, not 4, when Install = 0 (the key-info of
a fourth message as sent by a station), and 4 only when Install = 1.  The rule for
message 4 stands behind the rule for message 2 in the else-if chain. -/
theorem C2_message_4_recorded_as_2 (s : OinkState) (payload : Buf) (len : Nat)
    (srcMac dstMac : Buf) (now : Nat) (hlen : 99 ≤ len) (htype : rd payload 1 = 3)
    (hack : (256 * rd payload 5 + rd payload 6).testBit 7 = false)
    (hmic : (256 * rd payload 5 + rd payload 6).testBit 8 = true)
    (hsec : (256 * rd payload 5 + rd payload 6).testBit 9 = true) :
    ∃ hs : CapturedHandshake,
      (processEAPOL s payload len srcMac dstMac now).handshakes = s.handshakes ++ [hs]
        ∧ ((256 * rd payload 5 + rd payload 6).testBit 6 = false →
            hs.messageNum = 2 ∧ hs.messageNum ≠ 4)
        ∧ ((256 * rd payload 5 + rd payload 6).testBit 6 = true → hs.messageNum = 4) := by
  have hm : messageNumOf (keyInfoOf payload)
      = if (256 * rd payload 5 + rd payload 6).testBit 6 = false then 2 else 4 := by
    rw [messageNumOf_eq, keyInfoOf_eq]
    cases h6 : (256 * rd payload 5 + rd payload 6).testBit 6 <;> simp [hack, hmic, hsec]
  obtain ⟨hs, he, hn, -⟩ :=
    processEAPOL_accept s payload len srcMac dstMac now hlen htype
      (by rw [hm]; split_ifs <;> decide)
  refine ⟨hs, by rw [he], fun h6 => ?_, fun h6 => ?_⟩
  · rw [hn, hm, if_pos h6]; exact ⟨rfl, by decide⟩
  · rw [hn, hm, if_neg (by rw [h6]; decide)]

/-- C2 (witness): the 99-byte EAPOL-Key payload with key-info `0x030A` (pairwise key,
MIC, Secure; no Ack, no Install), the fourth message of a WPA2 handshake, is recorded
with message number 2. -/
theorem C2_message_4_recorded_as_2_witness :
    (processEAPOL initialState (keyFrame 3 10) 99 (macBuf 17) (macBuf 170) 5).handshakes.map
        (fun hs => hs.messageNum) = [2] :=
  let ⟨_, he, h2, _⟩ :=
    C2_message_4_recorded_as_2 initialState (keyFrame 3 10) 99 (macBuf 17) (macBuf 170) 5
      (by decide) (by decide) (by decide) (by decide) (by decide)
  by rw [he]; simp [initialState, (h2 (by decide)).1]

/-- C3: for a payload that passes the structural checks (length at least 99, type byte
3), with key-info the big-endian 16-bit field at offset 5 (Install bit 6, Key-Ack
bit 7, Key-MIC bit 8): Ack=1, MIC=0 is recorded as message 1; Ack=0, MIC=1, Install=0
as message 2; Ack=1, MIC=1, Install=1 as message 3. -/
theorem C3_messages_1_2_3 (s : OinkState) (payload : Buf) (len : Nat)
    (srcMac dstMac : Buf) (now : Nat) (hlen : 99 ≤ len) (htype : rd payload 1 = 3) :
    ((256 * rd payload 5 + rd payload 6).testBit 7 = true →
      (256 * rd payload 5 + rd payload 6).testBit 8 = false →
      ∃ hs : CapturedHandshake,
        (processEAPOL s payload len srcMac dstMac now).handshakes = s.handshakes ++ [hs]
          ∧ hs.messageNum = 1)
    ∧ ((256 * rd payload 5 + rd payload 6).testBit 7 = false →
      (256 * rd payload 5 + rd payload 6).testBit 8 = true →
      (256 * rd payload 5 + rd payload 6).testBit 6 = false →
      ∃ hs : CapturedHandshake,
        (processEAPOL s payload len srcMac dstMac now).handshakes = s.handshakes ++ [hs]
          ∧ hs.messageNum = 2)
    ∧ ((256 * rd payload 5 + rd payload 6).testBit 7 = true →
      (256 * rd payload 5 + rd payload 6).testBit 8 = true →
      (256 * rd payload 5 + rd payload 6).testBit 6 = true →
      ∃ hs : CapturedHandshake,
        (processEAPOL s payload len srcMac dstMac now).handshakes = s.handshakes ++ [hs]
          ∧ hs.messageNum = 3) := by
  have key : ∀ m : Nat, m ≠ 0 → messageNumOf (keyInfoOf payload) = m →
      ∃ hs : CapturedHandshake,
        (processEAPOL s payload len srcMac dstMac now).handshakes = s.handshakes ++ [hs]
          ∧ hs.messageNum = m := by
    intro m hm0 hm
    obtain ⟨hs, he, hn, -⟩ :=
      processEAPOL_accept s payload len srcMac dstMac now hlen htype (by rw [hm]; exact hm0)
    exact ⟨hs, by rw [he], by rw [hn, hm]⟩
  refine ⟨fun hack hmic => key 1 (by decide) ?_, fun hack hmic hinst => key 2 (by decide) ?_,
    fun hack hmic hinst => key 3 (by decide) ?_⟩
  · rw [messageNumOf_eq, keyInfoOf_eq]; simp [hack, hmic]
  · rw [messageNumOf_eq, keyInfoOf_eq]; simp [hack, hmic, hinst]
  · rw [messageNumOf_eq, keyInfoOf_eq]; simp [hack, hmic, hinst]

/-- C3 (witness): key-info `0x008A` (Ack, no MIC) is recorded as message 1. -/
theorem C3_messages_1_2_3_witness :
    ∃ hs : CapturedHandshake,
      (processEAPOL initialState (keyFrame 0 138) 99 (macBuf 17) (macBuf 170) 5).handshakes
          = initialState.handshakes ++ [hs]
        ∧ hs.messageNum = 1 :=
  (C3_messages_1_2_3 initialState (keyFrame 0 138) 99 (macBuf 17) (macBuf 170) 5
    (by decide) (by decide)).1 (by decide) (by decide)

/-- C4: for a payload that passes the structural checks and whose key-info bits match
none of the four rules (Ack and not MIC; not Ack, MIC, not Install; Ack, MIC, Install;
not Ack, MIC, Secure), `processEAPOL` changes nothing: in particular the Capture Store
is unchanged. -/
theorem C4_unclassifiable_discarded (s : OinkState) (payload : Buf) (len : Nat)
    (srcMac dstMac : Buf) (now : Nat) (_hlen : 99 ≤ len) (_htype : rd payload 1 = 3)
    (h1 : ¬ ((256 * rd payload 5 + rd payload 6).testBit 7 = true
              ∧ (256 * rd payload 5 + rd payload 6).testBit 8 = false))
    (h2 : ¬ ((256 * rd payload 5 + rd payload 6).testBit 7 = false
              ∧ (256 * rd payload 5 + rd payload 6).testBit 8 = true
              ∧ (256 * rd payload 5 + rd payload 6).testBit 6 = false))
    (h3 : ¬ ((256 * rd payload 5 + rd payload 6).testBit 7 = true
              ∧ (256 * rd payload 5 + rd payload 6).testBit 8 = true
              ∧ (256 * rd payload 5 + rd payload 6).testBit 6 = true))
    (h4 : ¬ ((256 * rd payload 5 + rd payload 6).testBit 7 = false
              ∧ (256 * rd payload 5 + rd payload 6).testBit 8 = true
              ∧ (256 * rd payload 5 + rd payload 6).testBit 9 = true)) :
    processEAPOL s payload len srcMac dstMac now = s
      ∧ (processEAPOL s payload len srcMac dstMac now).handshakes = s.handshakes := by
  have hm : messageNumOf (keyInfoOf payload) = 0 := by
    rw [messageNumOf_eq, keyInfoOf_eq, if_neg h1, if_neg h2, if_neg h3, if_neg h4]
  have := processEAPOL_decline s payload len srcMac dstMac now (Or.inr (Or.inr (Or.inr hm)))
  exact ⟨this, by rw [this]⟩

/-- C4 (witness): key-info `0x0000` matches no rule and the frame is dropped. -/
theorem C4_unclassifiable_discarded_witness :
    processEAPOL twoNetState (keyFrame 0 0) 99 (macBuf 17) (macBuf 170) 5 = twoNetState
      ∧ (processEAPOL twoNetState (keyFrame 0 0) 99 (macBuf 17) (macBuf 170) 5).handshakes
          = twoNetState.handshakes :=
  C4_unclassifiable_discarded twoNetState (keyFrame 0 0) 99 (macBuf 17) (macBuf 170) 5
    (by decide) (by decide) (by decide) (by decide) (by decide) (by decide)

/-- C5: a payload with length below 4, or with a type byte other than 3, or with length
below 99 leaves the state (so the Capture Store) unchanged; and on every input
`processEAPOL` either changes nothing or appends exactly one record after the records
already stored, which stay as they were. -/
theorem C5_reject_or_append_one (s : OinkState) (payload : Buf) (len : Nat)
    (srcMac dstMac : Buf) (now : Nat) :
    ((len < 4 ∨ rd payload 1 ≠ 3 ∨ len < 99) →
        processEAPOL s payload len srcMac dstMac now = s)
    ∧ (processEAPOL s payload len srcMac dstMac now = s
        ∨ ∃ hs : CapturedHandshake,
            (processEAPOL s payload len srcMac dstMac now).handshakes
              = s.handshakes ++ [hs]) := by
  constructor
  · intro h
    apply processEAPOL_decline
    rcases h with h | h | h
    · exact Or.inl h
    · exact Or.inr (Or.inl h)
    · exact Or.inr (Or.inr (Or.inl h))
  · by_cases h : len < 4 ∨ rd payload 1 ≠ 3 ∨ len < 99 ∨ messageNumOf (keyInfoOf payload) = 0
    · exact Or.inl (processEAPOL_decline s payload len srcMac dstMac now h)
    · simp only [not_or, not_lt, ne_eq, not_not] at h
      obtain ⟨hs, he, -⟩ :=
        processEAPOL_accept s payload len srcMac dstMac now h.2.2.1 h.2.1 h.2.2.2
      exact Or.inr ⟨hs, by rw [he]⟩

/-- C5 (witness): a key frame cut to 98 bytes is ignored. -/
theorem C5_reject_or_append_one_witness :
    processEAPOL twoNetState (keyFrame 0 138) 98 (macBuf 17) (macBuf 170) 5 = twoNetState :=
  (C5_reject_or_append_one twoNetState (keyFrame 0 138) 98 (macBuf 17) (macBuf 170) 5).1
    (Or.inr (Or.inr (by decide)))

/-- C6: whenever `processEAPOL` appends a record for a frame with transmitter address
`srcMac` and receiver address `dstMac`, the message number is 1, 2, 3 or 4; for 1 and 3
the record has bssid = transmitter and station = receiver, for 2 and 4 it has
bssid = receiver and station = transmitter. -/
theorem C6_roles_by_message (s : OinkState) (payload : Buf) (len : Nat)
    (srcMac dstMac : Buf) (now : Nat) (hs : CapturedHandshake)
    (hacc : (processEAPOL s payload len srcMac dstMac now).handshakes = s.handshakes ++ [hs]) :
    (hs.messageNum = 1 ∨ hs.messageNum = 2 ∨ hs.messageNum = 3 ∨ hs.messageNum = 4)
    ∧ ((hs.messageNum = 1 ∨ hs.messageNum = 3) →
        hs.bssid = readMac srcMac ∧ hs.station = readMac dstMac)
    ∧ ((hs.messageNum = 2 ∨ hs.messageNum = 4) →
        hs.bssid = readMac dstMac ∧ hs.station = readMac srcMac) := by
  by_cases h : len < 4 ∨ rd payload 1 ≠ 3 ∨ len < 99 ∨ messageNumOf (keyInfoOf payload) = 0
  · rw [processEAPOL_decline s payload len srcMac dstMac now h] at hacc
    have := congrArg List.length hacc
    simp at this
  · simp only [not_or, not_lt, ne_eq, not_not] at h
    obtain ⟨hs0, he, hn, hb, hst, -⟩ :=
      processEAPOL_accept s payload len srcMac dstMac now h.2.2.1 h.2.1 h.2.2.2
    rw [he] at hacc
    have heq : hs0 = hs := by
      have := List.append_cancel_left hacc
      simpa using this
    subst heq
    have hrange : hs0.messageNum = 1 ∨ hs0.messageNum = 2 ∨ hs0.messageNum = 3
        ∨ hs0.messageNum = 4 := by
      have hne : messageNumOf (keyInfoOf payload) ≠ 0 := h.2.2.2
      rw [hn]
      rw [messageNumOf_eq] at hne ⊢
      split_ifs at hne ⊢ <;> simp_all
    refine ⟨hrange, fun h13 => ?_, fun h24 => ?_⟩
    · rw [hb, hst, if_pos h13, if_pos h13]; exact ⟨rfl, rfl⟩
    · have hn13 : ¬ (hs0.messageNum = 1 ∨ hs0.messageNum = 3) := by
        rcases h24 with h | h <;> rw [h] <;> decide
      rw [hb, hst, if_neg hn13, if_neg hn13]; exact ⟨rfl, rfl⟩

/-- C6 (witness): the message-1 frame sent by `11:..` to `AA:..` is stored with
bssid `11:..` and station `AA:..`. -/
theorem C6_roles_by_message_witness :
    m1Record.bssid = readMac (macBuf 17) ∧ m1Record.station = readMac (macBuf 170) :=
  (C6_roles_by_message initialState (keyFrame 0 138) 99 (macBuf 17) (macBuf 170) 5 m1Record
    (by rfl)).2.1 (Or.inl (by decide))

/-! ## The element walk of `parseIEs` -/

/-- Every index the switch of `parseIEs` reads lies inside the consumed element. -/
theorem applyIEReads_lt (frame : Buf) (offset id ieLen i : Nat)
    (hi : i ∈ applyIEReads frame offset id ieLen) : i < offset + 2 + ieLen := by
  unfold applyIEReads at hi
  split_ifs at hi <;> simp at hi <;> omega

/-- The switch of `parseIEs` gives the same result on two buffers that agree on the
bytes of the consumed element. -/
theorem applyIE_congr (frame frame' : Buf) (offset id ieLen : Nat) (f : WiFiFeatures)
    (h : ∀ i, i < offset + 2 + ieLen → rd frame' i = rd frame i) :
    applyIE frame' offset id ieLen f = applyIE frame offset id ieLen f := by
  unfold applyIE
  by_cases h0 : id = 0
  · by_cases hl : ieLen = 0
    · simp [h0, hl]
    · have := h (offset + 2) (by omega)
      simp [h0, this]
  · by_cases h221 : id = 221
    · by_cases h4 : 4 ≤ ieLen
      · have e2 := h (offset + 2) (by omega)
        have e3 := h (offset + 3) (by omega)
        have e4 := h (offset + 4) (by omega)
        have e5 := h (offset + 5) (by omega)
        simp [h221, h4, e2, e3, e4, e5]
      · simp [h221, h4]
    · simp [h0, h221]

/-- The loop of `parseIEs` gives the same result on two buffers that agree below `len`. -/
theorem parseIEsLoop_congr (frame frame' : Buf) (len : Nat)
    (h : ∀ i, i < len → rd frame' i = rd frame i) :
    ∀ (fuel offset : Nat) (f : WiFiFeatures),
      parseIEsLoop fuel frame' len offset f = parseIEsLoop fuel frame len offset f := by
  intro fuel
  induction fuel with
  | zero => intro offset f; rfl
  | succ n ih =>
    intro offset f
    unfold parseIEsLoop
    by_cases hg : offset + 2 < len
    · have e0 := h offset (by omega)
      have e1 := h (offset + 1) (by omega)
      simp only [hg, if_true, e0, e1]
      by_cases hb : offset + 2 + rd frame (offset + 1) > len
      · simp [hb]
      · simp only [hb, if_false]
        rw [ih]
        rw [applyIE_congr frame frame' offset (rd frame offset) (rd frame (offset + 1)) f
          (fun i hi => h i (by omega))]
    · simp [hg]

/-- The recorded walk of `parseIEs`: it ends, computes what the loop computes, and
its consumed elements and reads obey the bound. -/
theorem parseIEsWalk_spec (frame : Buf) (len : Nat) (h16 : len < 65536) :
    ∀ (fuel offset : Nat) (f : WiFiFeatures), offset ≤ len → len < offset + fuel →
      ∃ w : IEWalk, parseIEsWalk fuel frame len offset f = some w
        ∧ parseIEsLoop fuel frame len offset f = some w.features
        ∧ w.consumed.map Prod.fst = spanStarts offset (w.consumed.map Prod.snd)
        ∧ (∀ e ∈ w.consumed, e.2 = rd frame (e.1 + 1) ∧ e.1 + 2 + e.2 ≤ len)
        ∧ offset + spanTotal (w.consumed.map Prod.snd) ≤ len
        ∧ (∀ i ∈ w.reads, i < len)
        ∧ (¬ (offset + spanTotal (w.consumed.map Prod.snd) + 2 < len)
            ∨ len < offset + spanTotal (w.consumed.map Prod.snd) + 2
                    + rd frame (offset + spanTotal (w.consumed.map Prod.snd) + 1))
        ∧ w.features
            = w.consumed.foldl (fun acc e => applyIE frame e.1 (rd frame e.1) e.2 acc) f := by
  intro fuel
  induction fuel with
  | zero => intro offset f h1 h2; omega
  | succ n ih =>
    intro offset f hle hfuel
    unfold parseIEsWalk parseIEsLoop
    by_cases hg : offset + 2 < len
    · by_cases hb : offset + 2 + rd frame (offset + 1) > len
      · refine ⟨⟨f, [], [offset, offset + 1]⟩, by simp [hg, hb], by simp [hg, hb], rfl,
          by simp, by simp [spanTotal]; exact hle, ?_, ?_, rfl⟩
        · intro i hi
          simp at hi
          omega
        · right
          simp [spanTotal]
          omega
      · have hb' : offset + 2 + rd frame (offset + 1) ≤ len := by omega
        have hmod : (offset + 2 + rd frame (offset + 1)) % 65536
            = offset + 2 + rd frame (offset + 1) := Nat.mod_eq_of_lt (by omega)
        obtain ⟨w, hw, hl, hstarts, hall, hsum, hreads, hstop, hfold⟩ :=
          ih (offset + 2 + rd frame (offset + 1))
            (applyIE frame offset (rd frame offset) (rd frame (offset + 1)) f) hb' (by omega)
        have htot : spanTotal (rd frame (offset + 1) :: w.consumed.map Prod.snd)
            = 2 + rd frame (offset + 1) + spanTotal (w.consumed.map Prod.snd) := by
          simp [spanTotal]
        refine ⟨⟨w.features, (offset, rd frame (offset + 1)) :: w.consumed,
            [offset, offset + 1]
              ++ applyIEReads frame offset (rd frame offset) (rd frame (offset + 1))
              ++ w.reads⟩, ?_, ?_, ?_, ?_, ?_, ?_, ?_, ?_⟩
        · simp only [hg, hb, if_true, if_false, hmod, hw]
        · simp only [hg, hb, if_true, if_false, hmod, hl]
        · simp [spanStarts, hstarts]
        · intro e he
          rcases List.mem_cons.mp he with rfl | he
          · exact ⟨rfl, hb'⟩
          · exact hall e he
        · simp only [List.map_cons, htot]; omega
        · intro i hi
          simp only [List.mem_append, List.mem_cons, List.mem_singleton,
            List.not_mem_nil, or_false] at hi
          rcases hi with (hi | hi) | hi
          · omega
          · have := applyIEReads_lt frame offset _ _ i hi
            omega
          · exact hreads i hi
        · simp only [List.map_cons, htot]
          have e1 : offset + (2 + rd frame (offset + 1) + spanTotal (w.consumed.map Prod.snd))
              = offset + 2 + rd frame (offset + 1) + spanTotal (w.consumed.map Prod.snd) := by
            omega
          rw [e1]
          exact hstop
        · simp only [List.foldl_cons]
          exact hfold
    · refine ⟨⟨f, [], []⟩, by simp [hg], by simp [hg], rfl, by simp,
        by simp [spanTotal]; exact hle, by simp, ?_, rfl⟩
      left
      simp [spanTotal]
      omega

/-! ## The element walks of `processBeacon` -/

/-- The SSID walk of `processBeacon` ends, and changes at most the name. -/
theorem ssidWalk_total (payload : Buf) (len : Nat) (h16 : len < 65536) :
    ∀ (fuel offset : Nat) (net : DetectedNetwork), offset ≤ len → len < offset + fuel →
      ∃ name : List Nat, ssidWalk fuel payload len offset net = some { net with ssid := name } := by
  intro fuel
  induction fuel with
  | zero => intro offset net h1 h2; omega
  | succ n ih =>
    intro offset net hle hfuel
    unfold ssidWalk
    by_cases hg : offset + 2 < len
    · by_cases hb : offset + 2 + rd payload (offset + 1) > len
      · exact ⟨net.ssid, by simp [hg, hb]⟩
      · by_cases hs : rd payload offset = 0 ∧ rd payload (offset + 1) > 0
            ∧ rd payload (offset + 1) < 33
        · refine ⟨readBytes (shift payload (offset + 2)) (rd payload (offset + 1))
              ++ (0 :: net.ssid.drop (rd payload (offset + 1) + 1)), ?_⟩
          simp only [hg, hb, hs, if_true, if_false, and_self]
        · have hmod : (offset + 2 + rd payload (offset + 1)) % 65536
              = offset + 2 + rd payload (offset + 1) := Nat.mod_eq_of_lt (by omega)
          obtain ⟨name, hn⟩ := ih (offset + 2 + rd payload (offset + 1)) net (by omega) (by omega)
          exact ⟨name, by simp only [hg, hb, hs, if_true, if_false, hmod, hn]⟩
    · exact ⟨net.ssid, by simp [hg]⟩

/-- A buffer holding `a ++ b` at `offset` holds `b` right after `a`. -/
theorem holdsAt_right (p : Buf) (offset : Nat) (a b : List Nat)
    (h : holdsAt p offset (a ++ b)) : holdsAt p (offset + a.length) b := by
  intro i hi
  have := h (a.length + i) (by simp; omega)
  rw [← Nat.add_assoc] at this
  rw [this]
  simp [List.getD_eq_getElem?_getD, List.getElem?_append_right]

/-- A buffer holding `a ++ b` at `offset` holds `a` there. -/
theorem holdsAt_left (p : Buf) (offset : Nat) (a b : List Nat)
    (h : holdsAt p offset (a ++ b)) : holdsAt p offset a := by
  intro i hi
  have := h i (by simp; omega)
  rw [this]
  simp [List.getD_eq_getElem?_getD, List.getElem?_append_left hi]

/-- The channel walk of `processBeacon` skips elements that are not a one-byte DS
Parameter Set and takes the value of the first one that is. -/
theorem channelWalk_first (payload : Buf) (len k : Nat) (h16 : len < 65536) :
    ∀ (pre : List (Nat × List Nat)) (fuel offset : Nat) (net : DetectedNetwork),
      (∀ e ∈ pre, ¬ (e.1 = 3 ∧ e.2.length = 1)) →
      holdsAt payload offset (encodeIEs pre ++ [3, 1, k]) →
      offset + (encodeIEs pre).length + 3 ≤ len → pre.length < fuel →
      channelWalk fuel payload len offset net = some { net with channel := k } := by
  intro pre
  induction pre with
  | nil =>
    intro fuel offset net _ hh hlen hfuel
    obtain ⟨n, rfl⟩ : ∃ n, fuel = n + 1 := ⟨fuel - 1, by simp at hfuel; omega⟩
    have e0 : rd payload offset = 3 := by simpa using hh 0 (by simp)
    have e1 : rd payload (offset + 1) = 1 := by simpa using hh 1 (by simp)
    have e2 : rd payload (offset + 2) = k := by simpa using hh 2 (by simp)
    have hg : offset + 2 < len := by simp [encodeIEs] at hlen; omega
    simp [channelWalk, hg, e0, e1, e2]
  | cons e rest ih =>
    intro fuel offset net hpre hh hlen hfuel
    obtain ⟨id, value⟩ := e
    obtain ⟨n, rfl⟩ : ∃ n, fuel = n + 1 := ⟨fuel - 1, by simp at hfuel; omega⟩
    have henc : encodeIEs ((id, value) :: rest) ++ [3, 1, k]
        = [id, value.length] ++ (value ++ (encodeIEs rest ++ [3, 1, k])) := by
      simp [encodeIEs]
    rw [henc] at hh
    have hhead := holdsAt_left _ _ _ _ hh
    have e0 : rd payload offset = id := by simpa using hhead 0 (by simp)
    have e1 : rd payload (offset + 1) = value.length := by simpa using hhead 1 (by simp)
    have htail := holdsAt_right _ _ _ _ (holdsAt_right _ _ _ _ hh)
    simp only [encodeIEs, List.length_cons, List.length_append] at hlen
    have hg : offset + 2 < len := by omega
    have hne : ¬ (id = 3 ∧ value.length = 1) := hpre (id, value) (by simp)
    have hmod : (offset + 2 + value.length) % 65536 = offset + 2 + value.length :=
      Nat.mod_eq_of_lt (by omega)
    have hrec := ih n (offset + 2 + value.length) net
      (fun e he => hpre e (List.mem_cons_of_mem _ he))
      (by simpa [Nat.add_assoc] using htail) (by omega) (by simp at hfuel; omega)
    simp only [channelWalk, hg, if_true, e0, e1, hne, if_false, hmod, hrec]

/-- Every encoded element takes at least two bytes. -/
theorem encodeIEs_length (pre : List (Nat × List Nat)) :
    2 * pre.length ≤ (encodeIEs pre).length := by
  induction pre with
  | nil => simp [encodeIEs]
  | cons e rest ih =>
    obtain ⟨id, value⟩ := e
    simp only [encodeIEs, List.length_cons, List.length_append]
    omega

/-- The feature extraction of a beacon of at least 36 bytes ends. -/
theorem extractFromBeacon_total (frame : Buf) (len fuel : Nat) (rssi : Int)
    (h36 : 36 ≤ len) (h16 : len < 65536) (hfuel : len ≤ fuel) :
    ∃ feats : WiFiFeatures, extractFromBeacon fuel frame len rssi = some feats := by
  have h : ¬ len < 36 := by omega
  simp only [extractFromBeacon, h, if_false, parseIEs]
  obtain ⟨w, -, hl, -⟩ := parseIEsWalk_spec frame len h16 fuel 36 _ h36 (by omega)
  exact ⟨w.features, hl⟩

/-- The switch of `parseIEs` never takes the hidden mark away. -/
theorem applyIE_keeps_hidden (frame : Buf) (offset id ieLen : Nat) (f : WiFiFeatures)
    (h : f.isHidden = true) : (applyIE frame offset id ieLen f).isHidden = true := by
  unfold applyIE
  split_ifs <;> simp [h]

/-- Once the hidden mark is set, the loop of `parseIEs` ends with the mark set. -/
theorem parseIEsLoop_keeps_hidden (frame : Buf) (len : Nat) (h16 : len < 65536) :
    ∀ (fuel offset : Nat) (f : WiFiFeatures), offset ≤ len → len < offset + fuel →
      f.isHidden = true →
      ∃ g : WiFiFeatures, parseIEsLoop fuel frame len offset f = some g ∧ g.isHidden = true := by
  intro fuel
  induction fuel with
  | zero => intro offset f h1 h2; omega
  | succ n ih =>
    intro offset f hle hfuel hf
    unfold parseIEsLoop
    by_cases hg : offset + 2 < len
    · by_cases hb : offset + 2 + rd frame (offset + 1) > len
      · exact ⟨f, by simp [hg, hb], hf⟩
      · have hmod : (offset + 2 + rd frame (offset + 1)) % 65536
            = offset + 2 + rd frame (offset + 1) := Nat.mod_eq_of_lt (by omega)
        obtain ⟨g, hg1, hg2⟩ := ih (offset + 2 + rd frame (offset + 1))
          (applyIE frame offset (rd frame offset) (rd frame (offset + 1)) f) (by omega)
          (by omega) (applyIE_keeps_hidden _ _ _ _ _ hf)
        exact ⟨g, by simp only [hg, hb, if_true, if_false, hmod, hg1], hg2⟩
    · exact ⟨f, by simp [hg], hf⟩

/-- The loop of `parseIEs` consumes a run of well-formed elements that is followed by
at least one more byte inside the declared length, one iteration per element. -/
theorem parseIEsLoop_skip (frame : Buf) (len : Nat) (h16 : len < 65536) :
    ∀ (pre : List (Nat × List Nat)) (fuel offset : Nat) (f : WiFiFeatures) (tail : List Nat),
      holdsAt frame offset (encodeIEs pre ++ tail) →
      offset + (encodeIEs pre).length < len →
      ∃ f' : WiFiFeatures,
        parseIEsLoop (pre.length + fuel) frame len offset f
          = parseIEsLoop fuel frame len (offset + (encodeIEs pre).length) f' := by
  intro pre
  induction pre with
  | nil =>
    intro fuel offset f tail _ _
    exact ⟨f, by simp [encodeIEs]⟩
  | cons e rest ih =>
    intro fuel offset f tail hh hlen
    obtain ⟨id, value⟩ := e
    have henc : encodeIEs ((id, value) :: rest) ++ tail
        = [id, value.length] ++ (value ++ (encodeIEs rest ++ tail)) := by
      simp [encodeIEs]
    rw [henc] at hh
    have hhead := holdsAt_left _ _ _ _ hh
    have e0 : rd frame offset = id := by simpa using hhead 0 (by simp)
    have e1 : rd frame (offset + 1) = value.length := by simpa using hhead 1 (by simp)
    have htail := holdsAt_right _ _ _ _ (holdsAt_right _ _ _ _ hh)
    simp only [encodeIEs, List.length_cons, List.length_append] at hlen
    have hg : offset + 2 < len := by
      have := encodeIEs_length rest
      omega
    have hb : ¬ offset + 2 + value.length > len := by omega
    have hmod : (offset + 2 + value.length) % 65536 = offset + 2 + value.length :=
      Nat.mod_eq_of_lt (by omega)
    obtain ⟨f', hf'⟩ := ih fuel (offset + 2 + value.length)
      (applyIE frame offset id value.length f) tail
      (by simpa [Nat.add_assoc] using htail) (by omega)
    refine ⟨f', ?_⟩
    have hfuel : ((id, value) :: rest).length + fuel = (rest.length + fuel) + 1 := by
      simp only [List.length_cons]; omega
    rw [hfuel, parseIEsLoop]
    simp only [hg, if_true, e0, e1, hb, if_false, hmod, hf']
    congr 1
    simp only [encodeIEs, List.length_cons, List.length_append]
    omega

/-- An SSID element that is zero-length or starts with a zero byte, reached through
well-formed elements and followed by at least one more byte inside the declared length
(`offset + 2 < len`), makes `extractFromBeacon` report a hidden network. -/
theorem extractFromBeacon_hidden (frame : Buf) (len fuel : Nat) (rssi : Int)
    (pre : List (Nat × List Nat)) (l : Nat) (h16 : len < 65536) (hfuel : len ≤ fuel)
    (hbytes : holdsAt frame 36 (encodeIEs pre ++ [0, l]))
    (hin : 36 + (encodeIEs pre).length + 2 + l ≤ len)
    (hguard : 36 + (encodeIEs pre).length + 2 < len)
    (hhid : l = 0 ∨ rd frame (36 + (encodeIEs pre).length + 2) = 0) :
    ∃ g : WiFiFeatures, extractFromBeacon fuel frame len rssi = some g ∧ g.isHidden = true := by
  have hn36 : ¬ len < 36 := by omega
  have hpl := encodeIEs_length pre
  obtain ⟨n, hn⟩ : ∃ n, fuel = pre.length + (n + 1) := ⟨fuel - pre.length - 1, by omega⟩
  simp only [extractFromBeacon, hn36, if_false, parseIEs]
  generalize
    ({ rssi := rssi, noise := -95, snr := rssi - -95, channel := _,
       secondaryChannel := _, beaconInterval := _, capability := _, hasWPS := false,
       hasWPA := _, hasWPA2 := _, hasWPA3 := _, isHidden := _, responseTime := _,
       beaconCount := _, beaconJitter := _, respondsToProbe := _, probeResponseTime := _,
       vendorIECount := _, supportedRates := _, htCapabilities := _, vhtCapabilities := _,
       anomalyScore := _ } : WiFiFeatures) = f0
  obtain ⟨f', hf'⟩ := parseIEsLoop_skip frame len h16 pre (n + 1) 36 f0 [0, l] hbytes (by omega)
  rw [hn, hf']
  have hs := holdsAt_right _ _ _ _ hbytes
  have e0 : rd frame (36 + (encodeIEs pre).length) = 0 := by simpa using hs 0 (by simp)
  have e1 : rd frame (36 + (encodeIEs pre).length + 1) = l := by simpa using hs 1 (by simp)
  have hb : ¬ 36 + (encodeIEs pre).length + 2 + l > len := by omega
  have hmod : (36 + (encodeIEs pre).length + 2 + l) % 65536
      = 36 + (encodeIEs pre).length + 2 + l := Nat.mod_eq_of_lt (by omega)
  have hset : (applyIE frame (36 + (encodeIEs pre).length) 0 l f').isHidden = true := by
    unfold applyIE
    simp [hhid]
  obtain ⟨g, hg1, hg2⟩ := parseIEsLoop_keeps_hidden frame len h16 n
    (36 + (encodeIEs pre).length + 2 + l) _ (by omega) (by omega) hset
  refine ⟨g, ?_, hg2⟩
  rw [parseIEsLoop]
  simp only [hguard, if_true, e0, e1, hb, if_false, hmod, hg1]

/-! ## Beacon claims -/

/-- C7: for a declared length below 36, whatever the buffer holds and whatever the loop
budget (even none), `processBeacon` returns with the state, hence the Network Registry,
unchanged and `extractFromBeacon` returns the all-zero record: the results do not
depend on any byte of the buffer. -/
theorem C7_short_beacon_ignored (fuel : Nat) (s : OinkState) (payload : Buf) (len : Nat)
    (rssi : Int) (now : Nat) (hshort : len < 36) :
    processBeacon fuel s payload len rssi now = some s
      ∧ extractFromBeacon fuel payload len rssi = some zeroFeatures
      ∧ ∀ other : Buf,
          processBeacon fuel s other len rssi now = processBeacon fuel s payload len rssi now
            ∧ extractFromBeacon fuel other len rssi = extractFromBeacon fuel payload len rssi := by
  simp [processBeacon, extractFromBeacon, hshort]

/-- C7 (witness): a 35-byte beacon changes nothing, even with no loop budget. -/
theorem C7_short_beacon_ignored_witness :
    processBeacon 0 twoNetState (beaconFrame 1 1 [0, 0]) 35 (-40) 7 = some twoNetState
      ∧ extractFromBeacon 0 (beaconFrame 1 1 [0, 0]) 35 (-40) = some zeroFeatures :=
  ⟨(C7_short_beacon_ignored 0 twoNetState (beaconFrame 1 1 [0, 0]) 35 (-40) 7 (by decide)).1,
   (C7_short_beacon_ignored 0 twoNetState (beaconFrame 1 1 [0, 0]) 35 (-40) 7 (by decide)).2.1⟩

/-- C8: for a declared length `len` from 36 to 65535 and a loop budget of at least
`len`, the walk of `parseIEs` ends; the elements it consumes start at 36 and follow one
another without gap; each has `offset + 2 + length <= len`, so the consumed spans add up
to at most `len - 36`; every byte index read is below `len`; the walk stops exactly at
the first position where at most two bytes remain below `len` or the element found
there overruns `len`; the features are those of the consumed elements alone, so an
element cut off by `len` has no effect; and they depend only on the bytes below `len`. -/
theorem C8_parseIEs_bounded (frame : Buf) (len fuel : Nat) (f : WiFiFeatures)
    (h36 : 36 ≤ len) (h16 : len < 65536) (hfuel : len ≤ fuel) :
    ∃ w : IEWalk, parseIEsWalk fuel frame len 36 f = some w
      ∧ parseIEs fuel frame len f = some w.features
      ∧ w.consumed.map Prod.fst = spanStarts 36 (w.consumed.map Prod.snd)
      ∧ (∀ e ∈ w.consumed, e.2 = rd frame (e.1 + 1) ∧ e.1 + 2 + e.2 ≤ len)
      ∧ spanTotal (w.consumed.map Prod.snd) ≤ len - 36
      ∧ (∀ i ∈ w.reads, i < len)
      ∧ (¬ (36 + spanTotal (w.consumed.map Prod.snd) + 2 < len)
          ∨ len < 36 + spanTotal (w.consumed.map Prod.snd) + 2
                  + rd frame (36 + spanTotal (w.consumed.map Prod.snd) + 1))
      ∧ w.features
          = w.consumed.foldl (fun acc e => applyIE frame e.1 (rd frame e.1) e.2 acc) f
      ∧ ∀ other : Buf, (∀ i, i < len → rd other i = rd frame i) →
          parseIEs fuel other len f = parseIEs fuel frame len f := by
  obtain ⟨w, hw, hl, hstarts, hall, hsum, hreads, hstop, hfold⟩ :=
    parseIEsWalk_spec frame len h16 fuel 36 f h36 (by omega)
  exact ⟨w, hw, hl, hstarts, hall, by omega, hreads, hstop, hfold,
    fun other h => parseIEsLoop_congr frame other len h fuel 36 f⟩

/-- C8 (witness): a 51-byte beacon whose last element (id 221, length 9) is cut off
after its header: three elements are consumed, at 36, 42 and 46. -/
theorem C8_parseIEs_bounded_witness :
    ∃ w : IEWalk,
      parseIEsWalk 51 (beaconFrame 1 1 [0, 4, 65, 66, 67, 68, 1, 2, 3, 4, 3, 1, 6, 221, 9])
          51 36 zeroFeatures = some w
        ∧ w.consumed = [(36, 4), (42, 2), (46, 1)]
        ∧ (∀ i ∈ w.reads, i < 51)
        ∧ w.features.vendorIECount = 0 := by
  obtain ⟨w, hw, -, -, -, -, hreads, -⟩ :=
    C8_parseIEs_bounded (beaconFrame 1 1 [0, 4, 65, 66, 67, 68, 1, 2, 3, 4, 3, 1, 6, 221, 9])
      51 51 zeroFeatures (by decide) (by decide) (by decide)
  refine ⟨w, hw, ?_, hreads, ?_⟩
  · have : parseIEsWalk 51
        (beaconFrame 1 1 [0, 4, 65, 66, 67, 68, 1, 2, 3, 4, 3, 1, 6, 221, 9])
        51 36 zeroFeatures
        = some ⟨{ zeroFeatures with supportedRates := 2 }, [(36, 4), (42, 2), (46, 1)],
            [36, 37, 38, 42, 43, 46, 47]⟩ := by rfl
    rw [this] at hw
    cases hw
    rfl
  · have : parseIEsWalk 51
        (beaconFrame 1 1 [0, 4, 65, 66, 67, 68, 1, 2, 3, 4, 3, 1, 6, 221, 9])
        51 36 zeroFeatures
        = some ⟨{ zeroFeatures with supportedRates := 2 }, [(36, 4), (42, 2), (46, 1)],
            [36, 37, 38, 42, 43, 46, 47]⟩ := by rfl
    rw [this] at hw
    cases hw
    rfl

/-- C9 (as amended): for every value `k` other than 0 and every beacon (declared length
36 to 65535, enough loop budget) from a BSSID not yet in the registry whose elements
from offset 36 on are well formed up to a DS Parameter Set element (id 3, length 1)
with value `k`, that element being the first of its kind, `processBeacon` appends one
registry entry, for that BSSID, with channel `k`. -/
theorem C9_first_ds_channel (fuel : Nat) (s : OinkState) (payload : Buf) (len : Nat)
    (rssi : Int) (now : Nat) (pre : List (Nat × List Nat)) (k : Nat)
    (h16 : len < 65536) (hfuel : len ≤ fuel)
    (hnew : findNetwork s (readMac (shift payload 16)) < 0)
    (hpre : ∀ e ∈ pre, ¬ (e.1 = 3 ∧ e.2.length = 1))
    (hbytes : holdsAt payload 36 (encodeIEs pre ++ [3, 1, k]))
    (hlen : 36 + (encodeIEs pre).length + 3 ≤ len)
    (hk : k ≠ 0) :
    ∃ net : DetectedNetwork,
      processBeacon fuel s payload len rssi now
          = some { s with networks := s.networks ++ [net],
                          newNetworkEvents := s.newNetworkEvents + 1 }
        ∧ net.channel = k
        ∧ net.bssid = readMac (shift payload 16) := by
  have h36 : 36 ≤ len := by omega
  have hn36 : ¬ len < 36 := by omega
  obtain ⟨name, hname⟩ := ssidWalk_total payload len h16 fuel 36
    { bssid := readMac (shift payload 16), ssid := List.replicate 33 0, rssi := rssi,
      channel := 0, authmode := 0, features := zeroFeatures, lastSeen := now,
      beaconCount := 1, isTarget := false } h36 (by omega)
  obtain ⟨feats, hfeats⟩ := extractFromBeacon_total payload len fuel rssi h36 h16 hfuel
  have hpl := encodeIEs_length pre
  have hch := channelWalk_first payload len k h16 pre fuel 36
    { bssid := readMac (shift payload 16), ssid := name, rssi := rssi,
      channel := 0, authmode := 0, features := feats, lastSeen := now,
      beaconCount := 1, isTarget := false } hpre hbytes hlen (by omega)
  refine ⟨DetectedNetwork.mk (readMac (shift payload 16)) name rssi k 0 feats now 1 false,
    ?_, rfl, rfl⟩
  simp only [processBeacon, hn36, if_false, hnew, if_true, hname, Option.some_bind, hfeats,
    hch, hk]

/-- C9 (witness): a 49-byte beacon with an SSID element, a rates element and a DS
Parameter Set element of value 6 yields an entry on channel 6. -/
theorem C9_first_ds_channel_witness :
    ∃ net : DetectedNetwork,
      processBeacon 49 initialState
          (beaconFrame 1 1 [0, 4, 65, 66, 67, 68, 1, 2, 3, 4, 3, 1, 6]) 49 (-40) 7
          = some { initialState with networks := initialState.networks ++ [net],
                                     newNetworkEvents := initialState.newNetworkEvents + 1 }
        ∧ net.channel = 6
        ∧ net.bssid
            = readMac (shift (beaconFrame 1 1 [0, 4, 65, 66, 67, 68, 1, 2, 3, 4, 3, 1, 6]) 16) :=
  C9_first_ds_channel 49 initialState
    (beaconFrame 1 1 [0, 4, 65, 66, 67, 68, 1, 2, 3, 4, 3, 1, 6]) 49 (-40) 7
    [(0, [65, 66, 67, 68]), (1, [3, 4])] 6 (by decide) (by decide) (by decide) (by decide)
    (by unfold holdsAt; decide) (by decide) (by decide)

/-- C9 (counterexample): a beacon from a new BSSID whose only element is a DS Parameter
Set of value 0 yields an entry on the current channel, 1, not on channel 0; and a beacon
holding two DS Parameter Set elements, of values 6 and 11, contains one of value 11 yet
yields an entry on channel 6. -/
theorem C9_counterexample :
    (holdsAt (beaconFrame 1 1 [3, 1, 0]) 36 (encodeIEs [] ++ [3, 1, 0])
      ∧ findNetwork initialState (readMac (shift (beaconFrame 1 1 [3, 1, 0]) 16)) < 0
      ∧ (processBeacon 39 initialState (beaconFrame 1 1 [3, 1, 0]) 39 (-40) 7).map
          (fun s => s.networks.map (fun n => n.channel)) = some [1])
    ∧ (holdsAt (beaconFrame 1 1 [3, 1, 6, 3, 1, 11]) 36 (encodeIEs [(3, [6])] ++ [3, 1, 11])
      ∧ findNetwork initialState
          (readMac (shift (beaconFrame 1 1 [3, 1, 6, 3, 1, 11]) 16)) < 0
      ∧ (processBeacon 42 initialState (beaconFrame 1 1 [3, 1, 6, 3, 1, 11]) 42 (-40) 7).map
          (fun s => s.networks.map (fun n => n.channel)) = some [6]) := by
  refine ⟨⟨?_, by decide, by rfl⟩, ⟨?_, by decide, by rfl⟩⟩
  · unfold holdsAt; decide
  · unfold holdsAt; decide

/-- C10 (code at the failing input): a 38-byte beacon whose capability field has the
ESS bit set and whose only element is a zero-length SSID element at offset 36 (it ends
exactly at the declared length) is reported as NOT hidden, for every loop budget: the
loop guard `offset + 2 < len` never lets the element in.  The same element followed by
one more byte is reported as hidden. -/
theorem C10_trailing_empty_ssid_not_hidden :
    (rd (beaconFrame 1 1 [0, 0]) 36 = 0 ∧ rd (beaconFrame 1 1 [0, 0]) 37 = 0
      ∧ 36 + 2 + 0 ≤ 38)
    ∧ (∀ fuel : Nat,
        (extractFromBeacon (fuel + 1) (beaconFrame 1 1 [0, 0]) 38 (-40)).map
          (fun f => f.isHidden) = some false)
    ∧ (extractFromBeacon 39 (beaconFrame 1 1 [0, 0, 1]) 39 (-40)).map
          (fun f => f.isHidden) = some true := by
  refine ⟨by decide, fun fuel => ?_, by rfl⟩
  rfl

/-! ## Deauthentication frames and channel hopping -/

/-- C16: for every target address `b`, destination `d` and reason code `r` (a byte),
`sendDeauthFrame(b, d, r)` transmits exactly one frame, of 26 bytes:
`C0 00 | 00 00 | d[0..5] | b[0..5] | b[0..5] | 00 00 | r 00`. -/
theorem C16_deauth_frame_layout (s : OinkState) (b d : Buf) (r : Nat) :
    deauthPacket b d r
        = [0xC0, 0x00, 0x00, 0x00] ++ readMac d ++ readMac b ++ readMac b
            ++ [0x00, 0x00, r % 256, 0x00]
      ∧ (deauthPacket b d r).length = 26
      ∧ (sendDeauthFrame s b d r).txFrames = s.txFrames ++ [deauthPacket b d r]
      ∧ sendDeauthFrame s b d r = { s with txFrames := s.txFrames ++ [deauthPacket b d r] } := by
  refine ⟨rfl, rfl, rfl, rfl⟩

/-- The channels of successive hops depend on the hop index only, and only modulo 13. -/
theorem hopTrace_congr (n : Nat) (s t : OinkState)
    (h : s.currentHopIndex % 13 = t.currentHopIndex % 13) : hopTrace n s = hopTrace n t := by
  induction n generalizing s t with
  | zero => rfl
  | succ k ih =>
    have hidx : (hopChannel s).currentHopIndex = (hopChannel t).currentHopIndex := by
      show (s.currentHopIndex + 1) % 13 = (t.currentHopIndex + 1) % 13
      omega
    have hch : (hopChannel s).currentChannel = (hopChannel t).currentChannel := by
      show CHANNEL_HOP_ORDER.getD ((s.currentHopIndex + 1) % 13) 0
        = CHANNEL_HOP_ORDER.getD ((t.currentHopIndex + 1) % 13) 0
      have : (s.currentHopIndex + 1) % 13 = (t.currentHopIndex + 1) % 13 := by omega
      rw [this]
    simp only [hopTrace, hch]
    rw [ih (hopChannel s) (hopChannel t) (by rw [hidx])]

/-- Thirteen hops from each of the thirteen hop indices. -/
theorem hopTrace_thirteen_small :
    ∀ j, j < 13 →
      hopTrace 13 { initialState with currentHopIndex := j }
        = CHANNEL_HOP_ORDER.rotate ((j + 1) % 13) := by
  decide

/-- C17: from hop index `i`, `hopChannel` sets the hop index to `(i + 1) mod 13` and the
current channel (also on the radio) to the entry of `{1,6,11,2,3,4,5,7,8,9,10,12,13}` at
that position, a channel from 1 to 13; thirteen consecutive hops go through the table
in its cyclic order, starting at that position, and so visit each of the channels 1..13
exactly once. -/
theorem C17_hop_order (s : OinkState) :
    (hopChannel s).currentHopIndex = (s.currentHopIndex + 1) % 13
      ∧ (hopChannel s).currentChannel
          = CHANNEL_HOP_ORDER.getD ((s.currentHopIndex + 1) % 13) 0
      ∧ (hopChannel s).radioChannel = (hopChannel s).currentChannel
      ∧ (1 ≤ (hopChannel s).currentChannel ∧ (hopChannel s).currentChannel ≤ 13)
      ∧ CHANNEL_HOP_ORDER = [1, 6, 11, 2, 3, 4, 5, 7, 8, 9, 10, 12, 13]
      ∧ hopTrace 13 s = CHANNEL_HOP_ORDER.rotate ((s.currentHopIndex + 1) % 13)
      ∧ (hopTrace 13 s).Perm [1, 2, 3, 4, 5, 6, 7, 8, 9, 10, 11, 12, 13] := by
  have hj : (s.currentHopIndex + 1) % 13 < 13 := Nat.mod_lt _ (by decide)
  have hrange : ∀ j, j < 13 →
      1 ≤ CHANNEL_HOP_ORDER.getD j 0 ∧ CHANNEL_HOP_ORDER.getD j 0 ≤ 13 := by decide
  have htrace : hopTrace 13 s = CHANNEL_HOP_ORDER.rotate ((s.currentHopIndex + 1) % 13) := by
    rw [hopTrace_congr 13 s { initialState with currentHopIndex := s.currentHopIndex % 13 }
      (by simp)]
    rw [hopTrace_thirteen_small _ (Nat.mod_lt _ (by decide))]
    congr 1
    omega
  refine ⟨rfl, rfl, rfl, hrange _ hj, rfl, htrace, ?_⟩
  rw [htrace]
  exact (List.rotate_perm _ _).trans (by decide)

/-! ## Eviction sweep -/

/-- The erase loop keeps exactly the entries that are not stale, in their order. -/
theorem sweepStale_eq_filter (now : Nat) (l : List DetectedNetwork) :
    sweepStale now l = l.filter (fun n => decide (u32sub now n.lastSeen ≤ 60000)) := by
  induction l with
  | nil => rfl
  | cons n rest ih =>
    by_cases h : u32sub now n.lastSeen > 60000
    · have h' : ¬ u32sub now n.lastSeen ≤ 60000 := by omega
      simp [sweepStale, h, h', ih]
    · have h' : u32sub now n.lastSeen ≤ 60000 := by omega
      simp [sweepStale, h, h', ih]

/-- The 32-bit difference between a time and the same time `d` milliseconds later. -/
theorem u32sub_add (t0 d : Nat) (ht : t0 < 4294967296) (hd : d < 4294967296) :
    u32sub (t0 + d) t0 = d := by
  unfold u32sub
  omega

/-- The registry after an `update` whose sweep runs. -/
theorem update_networks (s : OinkState) (now hopInterval : Nat) (hrun : s.running = true)
    (hdue : u32sub now s.lastScanTime > 30000) :
    (update s now hopInterval).networks = sweepStale now s.networks := by
  have h1 : (updateHop s now hopInterval).networks = s.networks
      ∧ (updateHop s now hopInterval).lastScanTime = s.lastScanTime := by
    unfold updateHop
    split_ifs <;> exact ⟨rfl, rfl⟩
  simp only [update, hrun, Bool.not_true, Bool.false_eq_true, if_false, updateSweep, h1.2,
    hdue, if_true, h1.1]

/-- C14: when the eviction sweep of `update()` runs (mode running, more than 30000 ms
since the last sweep) at time `now`, the registry becomes the list of the entries with
`now - lastSeen <= 60000` (32-bit difference), in their original order: exactly the
entries with `now - lastSeen > 60000` are removed.  In particular an entry last seen at
`t0` is kept by a sweep at `t0 + 60000 - 1` and removed by a sweep at `t0 + 60000 + 1`. -/
theorem C14_eviction_sweep (s : OinkState) (now hopInterval : Nat)
    (hrun : s.running = true) (hdue : u32sub now s.lastScanTime > 30000) :
    (update s now hopInterval).networks
        = s.networks.filter (fun n => decide (u32sub now n.lastSeen ≤ 60000))
      ∧ (∀ n ∈ s.networks, n.lastSeen ≤ now → now < 4294967296 →
          (n ∈ (update s now hopInterval).networks ↔ now - n.lastSeen ≤ 60000))
      ∧ (∀ n ∈ s.networks, n.lastSeen < 4294967296 → now = n.lastSeen + 60000 - 1 →
          n ∈ (update s now hopInterval).networks)
      ∧ (∀ n ∈ s.networks, n.lastSeen < 4294967296 → now = n.lastSeen + 60000 + 1 →
          n ∉ (update s now hopInterval).networks) := by
  have hnet := update_networks s now hopInterval hrun hdue
  rw [sweepStale_eq_filter] at hnet
  refine ⟨hnet, ?_, ?_, ?_⟩
  · intro n hn hle hnow
    rw [hnet, List.mem_filter]
    have : u32sub now n.lastSeen = now - n.lastSeen := by
      unfold u32sub; omega
    simp [hn, this]
  · intro n hn ht hnow
    rw [hnet, List.mem_filter]
    have : u32sub now n.lastSeen = 59999 := by
      rw [hnow, show n.lastSeen + 60000 - 1 = n.lastSeen + 59999 by omega]
      exact u32sub_add n.lastSeen 59999 ht (by omega)
    simp [hn, this]
  · intro n hn ht hnow
    rw [hnet, List.mem_filter]
    have : u32sub now n.lastSeen = 60001 := by
      rw [hnow, show n.lastSeen + 60000 + 1 = n.lastSeen + 60001 by omega]
      exact u32sub_add n.lastSeen 60001 ht (by omega)
    simp [this]

/-! ## Scan controller -/

/-- What `setChannel` does to the channel, and that it touches nothing else relevant. -/
theorem setChannel_spec (s : OinkState) (ch : Nat) :
    (1 ≤ ch ∧ ch ≤ 14 → (setChannel s ch).currentChannel = ch
        ∧ (setChannel s ch).radioChannel = ch)
      ∧ ((ch < 1 ∨ 14 < ch) → setChannel s ch = s)
      ∧ (setChannel s ch).channelHopping = s.channelHopping
      ∧ (setChannel s ch).deauthing = s.deauthing
      ∧ (setChannel s ch).running = s.running := by
  unfold setChannel
  refine ⟨fun h => ?_, fun h => ?_, ?_, ?_, ?_⟩
  · have : ¬ (ch < 1 ∨ ch > 14) := by omega
    rw [if_neg this]
    exact ⟨rfl, rfl⟩
  · have : ch < 1 ∨ ch > 14 := by omega
    rw [if_pos this]
  all_goals split_ifs <;> rfl

/-- C18 (as amended): for every registry and every valid index `i`, after
`selectTarget(i)` channel hopping is disabled and the selected target is entry `i`
(flagged); `currentChannel` (and the radio) is set to the channel recorded for entry
`i` when that channel is from 1 to 14, and is left as it was otherwise. -/
theorem C18_select_locks_valid_channel (s : OinkState) (i : Nat) (n : DetectedNetwork)
    (hn : s.networks[i]? = some n) :
    (selectTarget s i).channelHopping = false
      ∧ (selectTarget s i).targetIndex = i
      ∧ getTarget (selectTarget s i) = some { n with isTarget := true }
      ∧ (1 ≤ n.channel ∧ n.channel ≤ 14 →
          (selectTarget s i).currentChannel = n.channel
            ∧ (selectTarget s i).radioChannel = n.channel)
      ∧ ((n.channel < 1 ∨ 14 < n.channel) →
          (selectTarget s i).currentChannel = s.currentChannel
            ∧ (selectTarget s i).radioChannel = s.radioChannel) := by
  have hi : i < s.networks.length := by
    rcases Nat.lt_or_ge i s.networks.length with h | h
    · exact h
    · rw [List.getElem?_eq_none h] at hn; cases hn
  have hv : 0 ≤ (i : Int) ∧ (i : Int) < (s.networks.length : Int) := by
    constructor <;> omega
  obtain ⟨hnet, hidx⟩ := selectTarget_valid s i hi
  have hget : (modifyNth (fun n => { n with isTarget := true }) s.networks i)[i]?
      = some { n with isTarget := true } := by
    rw [modifyNth_getElem?_eq, hn]; rfl
  have hsel : selectTarget s i
      = setChannel
          { s with
            targetIndex := i
            networks := modifyNth (fun n => { n with isTarget := true }) s.networks i
            channelHopping := false }
          n.channel := by
    unfold selectTarget
    simp only [hv, and_self, if_true, Int.toNat_ofNat, hget]
  refine ⟨?_, hidx, ?_, ?_, ?_⟩
  · rw [hsel, (setChannel_spec _ _).2.2.1]
  · unfold getTarget
    simp only [hidx, hnet, modifyNth_length, hv, and_self, if_true, Int.toNat_ofNat, hget]
  · intro h
    rw [hsel]
    exact (setChannel_spec _ _).1 h
  · intro h
    rw [hsel, (setChannel_spec _ _).2.1 h]
    exact ⟨rfl, rfl⟩

/-- C18 (witness): locking on entry 0 of the two-entry registry, recorded on channel 6. -/
theorem C18_select_locks_valid_channel_witness :
    (selectTarget twoNetState 0).channelHopping = false
      ∧ (selectTarget twoNetState 0).targetIndex = 0
      ∧ (selectTarget twoNetState 0).currentChannel = 6 :=
  ⟨(C18_select_locks_valid_channel twoNetState 0 (sampleNet 1 6) (by rfl)).1,
   (C18_select_locks_valid_channel twoNetState 0 (sampleNet 1 6) (by rfl)).2.1,
   ((C18_select_locks_valid_channel twoNetState 0 (sampleNet 1 6) (by rfl)).2.2.2.1
      (by decide)).1⟩

/-- C18 (counterexample): a beacon whose DS Parameter Set element says 200 creates an
entry recorded on channel 200; after `selectTarget(0)` hopping is off and entry 0 is the
target, but `currentChannel` is still 1, not 200. -/
theorem C18_counterexample :
    (processBeacon 39 initialState (beaconFrame 1 1 [3, 1, 200]) 39 (-40) 7).map
        (fun s => ((selectTarget s 0).channelHopping, (selectTarget s 0).targetIndex,
                   (getTarget (selectTarget s 0)).map (fun n => n.channel),
                   (selectTarget s 0).currentChannel))
      = some (false, 0, some 200, 1) := by
  rfl

/-- The hop block changes nothing while deauthing is active or hopping is disabled. -/
theorem updateHop_idle (s : OinkState) (now hopInterval : Nat)
    (h : s.deauthing = true ∨ s.channelHopping = false) : updateHop s now hopInterval = s := by
  unfold updateHop
  rcases h with h | h <;> simp [h]

/-- The hop block hops when hopping is enabled, deauthing is not active and the
interval has elapsed. -/
theorem updateHop_due (s : OinkState) (now hopInterval : Nat)
    (hhop : s.channelHopping = true) (hd : s.deauthing = false)
    (hdue : u32sub now s.lastHopTime > hopInterval) :
    updateHop s now hopInterval = { hopChannel s with lastHopTime := now } := by
  unfold updateHop
  simp [hhop, hd, hdue]

/-- The cleanup block leaves the channel state alone. -/
theorem updateSweep_channel (s : OinkState) (now : Nat) :
    (updateSweep s now).currentChannel = s.currentChannel
      ∧ (updateSweep s now).currentHopIndex = s.currentHopIndex
      ∧ (updateSweep s now).radioChannel = s.radioChannel := by
  unfold updateSweep
  split_ifs <;> exact ⟨rfl, rfl, rfl⟩

/-- While deauthing is active or hopping is disabled, `update` leaves the channel, the
hop index and the radio channel as they are. -/
theorem update_keeps_channel (s : OinkState) (now hopInterval : Nat)
    (h : s.deauthing = true ∨ s.channelHopping = false) :
    (update s now hopInterval).currentChannel = s.currentChannel
      ∧ (update s now hopInterval).currentHopIndex = s.currentHopIndex
      ∧ (update s now hopInterval).radioChannel = s.radioChannel := by
  unfold update
  by_cases hr : s.running = true
  · simp only [hr, Bool.not_true, Bool.false_eq_true, if_false, updateHop_idle s now hopInterval h]
    exact updateSweep_channel s now
  · simp [hr]

/-- In a running state with hopping enabled, deauthing not active and the interval
elapsed, `update` performs one hop. -/
theorem update_hops (s : OinkState) (now hopInterval : Nat) (hr : s.running = true)
    (hhop : s.channelHopping = true) (hd : s.deauthing = false)
    (hdue : u32sub now s.lastHopTime > hopInterval) :
    (update s now hopInterval).currentHopIndex = (s.currentHopIndex + 1) % 13
      ∧ (update s now hopInterval).currentChannel
          = CHANNEL_HOP_ORDER.getD ((s.currentHopIndex + 1) % 13) 0
      ∧ (update s now hopInterval).radioChannel
          = CHANNEL_HOP_ORDER.getD ((s.currentHopIndex + 1) % 13) 0 := by
  unfold update
  simp only [hr, Bool.not_true, Bool.false_eq_true, if_false,
    updateHop_due s now hopInterval hhop hd hdue]
  obtain ⟨h1, h2, h3⟩ := updateSweep_channel { hopChannel s with lastHopTime := now } now
  rw [h1, h2, h3]
  exact ⟨rfl, rfl, rfl⟩

/-- What `clearTarget` sets and what it leaves alone. -/
theorem clearTarget_fields (s : OinkState) :
    (clearTarget s).targetIndex = -1
      ∧ (clearTarget s).channelHopping = true
      ∧ (clearTarget s).deauthing = s.deauthing
      ∧ (clearTarget s).running = s.running
      ∧ (clearTarget s).currentChannel = s.currentChannel
      ∧ (clearTarget s).currentHopIndex = s.currentHopIndex
      ∧ (clearTarget s).lastHopTime = s.lastHopTime
      ∧ (clearTarget s).txFrames = s.txFrames := by
  unfold clearTarget
  split_ifs <;> exact ⟨rfl, rfl, rfl, rfl, rfl, rfl, rfl, rfl⟩

/-- No deauthentication frame is sent without a target index or without the flag. -/
theorem deauthTick_idle (s : OinkState) (now : Nat)
    (h : s.deauthing = false ∨ s.targetIndex < 0) : deauthTick s now = some s := by
  unfold deauthTick
  rcases h with h | h
  · simp [h]
  · have : ¬ 0 ≤ s.targetIndex := by omega
    simp [this]

/-- From a state locked on a target in which deauthing is not active, `clearTarget()`
leads to hopping: no target, flag false, hopping enabled, the next due `update()`
hops, and the callback sends no deauthentication frame. -/
theorem clearTarget_from_locked (s : OinkState) (now hopInterval : Nat)
    (hd : s.deauthing = false) :
    (clearTarget s).targetIndex = -1
      ∧ getTarget (clearTarget s) = none
      ∧ (clearTarget s).deauthing = false
      ∧ (clearTarget s).channelHopping = true
      ∧ (s.running = true → u32sub now s.lastHopTime > hopInterval →
          (update (clearTarget s) now hopInterval).currentHopIndex
              = (s.currentHopIndex + 1) % 13
            ∧ (update (clearTarget s) now hopInterval).currentChannel
              = CHANNEL_HOP_ORDER.getD ((s.currentHopIndex + 1) % 13) 0)
      ∧ deauthTick (clearTarget s) now = some (clearTarget s) := by
  obtain ⟨h1, h2, h3, h4, -, h6, h7, -⟩ := clearTarget_fields s
  refine ⟨h1, ?_, by rw [h3, hd], h2, ?_, ?_⟩
  · unfold getTarget
    rw [h1]
    simp
  · intro hr hdue
    have := update_hops (clearTarget s) now hopInterval (by rw [h4, hr]) h2 (by rw [h3, hd])
      (by rw [h7]; exact hdue)
    rw [h6] at this
    exact ⟨this.1, this.2.1⟩
  · exact deauthTick_idle _ _ (Or.inl (by rw [h3, hd]))

/-- C19 (code at the failing input): in the running state locked on entry 0 with
deauthing started, `clearTarget()` clears the target and re-enables hopping but leaves
the deauth-active flag set; from then on no `update()` changes the channel or the hop
index, whatever the time and the hop interval, and selecting entry 1 makes the callback
send a deauthentication frame although deauth was never started again. -/
theorem C19_clearTarget_keeps_deauth_flag :
    (deauthingState.running = true ∧ deauthingState.deauthing = true
      ∧ deauthingState.targetIndex = 0)
    ∧ ((clearTarget deauthingState).targetIndex = -1
      ∧ (clearTarget deauthingState).channelHopping = true
      ∧ (clearTarget deauthingState).deauthing = true)
    ∧ (∀ now hopInterval : Nat,
        (update (clearTarget deauthingState) now hopInterval).currentChannel
            = (clearTarget deauthingState).currentChannel
          ∧ (update (clearTarget deauthingState) now hopInterval).currentHopIndex
            = (clearTarget deauthingState).currentHopIndex)
    ∧ (deauthTick (selectTarget (clearTarget deauthingState) 1) 1000).map
        (fun s => s.txFrames) = some [deauthPacket (macBuf 2) (macBuf 255) 7] := by
  refine ⟨by decide, by decide, fun now hopInterval => ?_, by rfl⟩
  have := update_keeps_channel (clearTarget deauthingState) now hopInterval (Or.inl (by decide))
  exact ⟨this.1, this.2.1⟩

/-- C20 (as amended): `stopDeauth()` clears the deauth-active flag and changes nothing
else, so the target stays selected and the hop-enabled flag keeps its value.  With the
hop-enabled flag false (as `startDeauth()` leaves it) a following `update()` does not
change the channel or the hop index; with it true, in a running state with the hop
interval elapsed, `update()` performs one hop. -/
theorem C20_stopDeauth_only_clears_flag (s : OinkState) (now hopInterval : Nat) :
    stopDeauth s = { s with deauthing := false }
      ∧ (stopDeauth s).deauthing = false
      ∧ (stopDeauth s).channelHopping = s.channelHopping
      ∧ (stopDeauth s).targetIndex = s.targetIndex
      ∧ (s.channelHopping = false →
          (update (stopDeauth s) now hopInterval).currentChannel = s.currentChannel
            ∧ (update (stopDeauth s) now hopInterval).currentHopIndex = s.currentHopIndex)
      ∧ (s.channelHopping = true → s.running = true →
          u32sub now s.lastHopTime > hopInterval →
          (update (stopDeauth s) now hopInterval).currentHopIndex
              = (s.currentHopIndex + 1) % 13
            ∧ (update (stopDeauth s) now hopInterval).currentChannel
              = CHANNEL_HOP_ORDER.getD ((s.currentHopIndex + 1) % 13) 0) := by
  refine ⟨rfl, rfl, rfl, rfl, fun h => ?_, fun h hr hdue => ?_⟩
  · have := update_keeps_channel (stopDeauth s) now hopInterval (Or.inr h)
    exact ⟨this.1, this.2.1⟩
  · have := update_hops (stopDeauth s) now hopInterval hr h rfl hdue
    exact ⟨this.1, this.2.1⟩

/-- C20 (witness): after `stopDeauth()` in the deauthing state, an `update()` long after
the hop interval leaves the channel where it was. -/
theorem C20_stopDeauth_only_clears_flag_witness :
    (update (stopDeauth deauthingState) 100000 500).currentChannel
        = deauthingState.currentChannel
      ∧ (update (stopDeauth deauthingState) 100000 500).currentHopIndex
        = deauthingState.currentHopIndex :=
  (C20_stopDeauth_only_clears_flag deauthingState 100000 500).2.2.2.2.1 (by decide)

/-- C20 (counterexample): in the running state locked on entry 0 with deauthing
started, `stopDeauth()` clears the flag but hopping stays disabled, and an `update()`
100000 ms after the last hop, with a hop interval of 500 ms, changes neither the channel
nor the hop index. -/
theorem C20_counterexample :
    (deauthingState.running = true ∧ deauthingState.deauthing = true)
    ∧ (stopDeauth deauthingState).deauthing = false
    ∧ (stopDeauth deauthingState).channelHopping = false
    ∧ u32sub 100000 (stopDeauth deauthingState).lastHopTime > 500
    ∧ (update (stopDeauth deauthingState) 100000 500).currentChannel
        = (stopDeauth deauthingState).currentChannel
    ∧ (update (stopDeauth deauthingState) 100000 500).currentHopIndex
        = (stopDeauth deauthingState).currentHopIndex := by
  decide

/-! ## Data frames -/

set_option maxRecDepth 100000 in
/-- The masks of `processDataFrame` test single bits of a byte. -/
theorem byte_masks :
    ∀ x, x < 256 →
      ((x &&& 0x01 ≠ 0 ∧ (x &&& 0x02) >>> 1 ≠ 0) ↔ (x.testBit 0 = true ∧ x.testBit 1 = true))
        ∧ ((x &&& 0x80 ≠ 0 ∧ x &&& 0x08 ≠ 0) ↔ (x.testBit 7 = true ∧ x.testBit 3 = true)) := by
  decide

/-- The offset computed by `processDataFrame` is the header length of the
specification. -/
theorem dataOffset_eq (payload : Buf) : dataOffset payload = headerLength payload := by
  have h0 := byte_masks (rd payload 0) (Nat.mod_lt _ (by decide))
  have h1 := byte_masks (rd payload 1) (Nat.mod_lt _ (by decide))
  unfold dataOffset headerLength
  simp only [h1.1, h0.2]
  split_ifs <;> rfl

/-- The header length is 24, 26, 30 or 32. -/
theorem headerLength_le (payload : Buf) : 24 ≤ headerLength payload ∧ headerLength payload ≤ 32 := by
  unfold headerLength
  split_ifs <;> omega

/-- The LLC test succeeds exactly when the eight bytes at the offset are
`AA AA 03 00 00 00 88 8E`. -/
theorem llcMatch_iff (payload : Buf) (offset : Nat) :
    llcMatch payload offset = true ↔ readBytes (shift payload offset) 8 = llcSnapEapol := by
  simp [llcMatch, readBytes, llcSnapEapol, List.range, List.range.loop, rd, shift]

/-- C11: `processDataFrame` passes a payload to `processEAPOL` exactly when
`len >= 28`, `h + 8 <= len` and bytes `h .. h+7` are `AA AA 03 00 00 00 88 8E`, `h`
being the header length (24, plus 6 with ToDS and FromDS both set, plus 2 with bits
`0x80` and `0x08` of byte 0 both set); what it passes is the bytes `h+8 .. len-1`, with
the transmitter address from bytes 10..15 and the receiver address from bytes 4..9.
In every other case the state is unchanged. -/
theorem C11_data_frame_dispatch (s : OinkState) (payload : Buf) (len : Nat) (rssi : Int)
    (now : Nat) :
    ((28 ≤ len ∧ headerLength payload + 8 ≤ len
        ∧ readBytes (shift payload (headerLength payload)) 8 = llcSnapEapol) →
      processDataFrame s payload len rssi now
        = processEAPOL s (shift payload (headerLength payload + 8))
            (len - (headerLength payload + 8)) (shift payload 10) (shift payload 4) now)
    ∧ (¬ (28 ≤ len ∧ headerLength payload + 8 ≤ len
        ∧ readBytes (shift payload (headerLength payload)) 8 = llcSnapEapol) →
      processDataFrame s payload len rssi now = s)
    ∧ (∀ i, rd (shift payload (headerLength payload + 8)) i
          = rd payload (headerLength payload + 8 + i))
    ∧ readMac (shift payload 10)
        = [rd payload 10, rd payload 11, rd payload 12, rd payload 13, rd payload 14,
           rd payload 15]
    ∧ readMac (shift payload 4)
        = [rd payload 4, rd payload 5, rd payload 6, rd payload 7, rd payload 8,
           rd payload 9] := by
  refine ⟨fun h => ?_, fun h => ?_, fun i => rfl, rfl, rfl⟩
  · obtain ⟨h28, hfit, hllc⟩ := h
    have hm := (llcMatch_iff payload (headerLength payload)).mpr hllc
    have a : ¬ len < 28 := by omega
    have b : ¬ headerLength payload + 8 > len := by omega
    simp only [processDataFrame, a, if_false, dataOffset_eq, b, hm, if_true, Nat.sub_sub]
  · simp only [processDataFrame, dataOffset_eq]
    by_cases a : len < 28
    · simp [a]
    · by_cases b : headerLength payload + 8 > len
      · simp [a, b]
      · have hm : ¬ llcMatch payload (headerLength payload) = true := by
          intro hm
          exact h ⟨by omega, by omega, (llcMatch_iff _ _).mp hm⟩
        simp [a, b, hm]

/-- A chain of byte comparisons starting at `offset` reads at most the window it
compares. -/
theorem matchReads_lt (payload : Buf) (es : List Nat) :
    ∀ (offset i : Nat), i ∈ matchReads payload offset es → i < offset + es.length := by
  induction es with
  | nil => intro offset i hi; simp [matchReads] at hi
  | cons e rest ih =>
    intro offset i hi
    simp only [matchReads, List.mem_cons] at hi
    rcases hi with rfl | hi
    · simp
    · split_ifs at hi
      · have := ih (offset + 1) i hi
        simp only [List.length_cons]
        omega
      · simp at hi

/-- Every index `processEAPOL` reads in its payload is below the length it is given. -/
theorem processEAPOLReads_lt (payload : Buf) (len i : Nat)
    (hi : i ∈ (processEAPOLReads payload len).1) : i < len := by
  unfold processEAPOLReads at hi
  split_ifs at hi <;> simp at hi <;> omega

/-- The header offset depends on bytes 0 and 1 only. -/
theorem dataOffset_congr (payload other : Buf) (h0 : rd other 0 = rd payload 0)
    (h1 : rd other 1 = rd payload 1) : dataOffset other = dataOffset payload := by
  unfold dataOffset
  rw [h0, h1]

/-- The header offset is at most 32. -/
theorem dataOffset_le (payload : Buf) : dataOffset payload ≤ 32 := by
  simp only [dataOffset]
  split_ifs <;> omega

/-- The key-info field depends on bytes 5 and 6 only. -/
theorem keyInfoOf_congr (payload other : Buf) (h5 : rd other 5 = rd payload 5)
    (h6 : rd other 6 = rd payload 6) : keyInfoOf other = keyInfoOf payload := by
  unfold keyInfoOf
  rw [h5, h6]

/-- The copied prefix depends on the bytes copied only. -/
theorem readBytes_congr (payload other : Buf) (n : Nat)
    (h : ∀ i, i < n → rd other i = rd payload i) : readBytes other n = readBytes payload n := by
  unfold readBytes
  apply List.map_congr_left
  intro i hi
  exact h i (List.mem_range.mp hi)

/-- The result of `processEAPOL` depends only on the payload bytes below the length it
is given and on the six bytes of each address. -/
theorem processEAPOL_congr (s : OinkState) (payload other : Buf) (len : Nat)
    (srcMac dstMac srcMac' dstMac' : Buf) (now : Nat)
    (h : ∀ i, i < len → rd other i = rd payload i)
    (hsrc : readMac srcMac' = readMac srcMac) (hdst : readMac dstMac' = readMac dstMac) :
    processEAPOL s other len srcMac' dstMac' now = processEAPOL s payload len srcMac dstMac now := by
  unfold processEAPOL
  by_cases h4 : len < 4
  · simp [h4]
  · have e1 := h 1 (by omega)
    by_cases ht : rd payload 1 = 3
    · by_cases h99 : len < 99
      · simp [h4, e1, ht, h99]
      · have ek := keyInfoOf_congr payload other (h 5 (by omega)) (h 6 (by omega))
        have eb := readBytes_congr payload other (min 512 len)
          (fun i hi => h i (by omega))
        simp only [h4, e1, ht, h99, ek, eb, hsrc, hdst]
    · simp [h4, e1, ht]

/-- The LLC test depends on the eight bytes of its window only. -/
theorem llcMatch_congr (payload other : Buf) (offset : Nat)
    (h : ∀ j, j < 8 → rd other (offset + j) = rd payload (offset + j)) :
    llcMatch other offset = llcMatch payload offset := by
  unfold llcMatch
  have e0 := h 0 (by omega)
  rw [Nat.add_zero] at e0
  rw [e0, h 1 (by omega), h 2 (by omega), h 3 (by omega), h 4 (by omega), h 5 (by omega),
    h 6 (by omega), h 7 (by omega)]

/-- C12: the data-frame path never reads at or beyond the declared length.  Every
index of the frame read by `processDataFrame` (frame control, the eight-byte window at
the header offset, and through `processEAPOL` the addresses and the key payload) is
below `len`; every index of its payload read by `processEAPOL` (type byte, key-info
bytes, copied prefix) is below the length it is given; and the results of both
functions are the same for any two buffers that agree below that length. -/
theorem C12_data_path_reads_in_bounds (s : OinkState) (payload : Buf) (len : Nat)
    (rssi : Int) (srcMac dstMac : Buf) (now : Nat) :
    (∀ i ∈ processDataFrameReads payload len, i < len)
      ∧ (∀ i ∈ (processEAPOLReads payload len).1, i < len)
      ∧ (∀ other : Buf, (∀ i, i < len → rd other i = rd payload i) →
          processDataFrame s other len rssi now = processDataFrame s payload len rssi now)
      ∧ (∀ other : Buf, (∀ i, i < len → rd other i = rd payload i) →
          processEAPOL s other len srcMac dstMac now
            = processEAPOL s payload len srcMac dstMac now) := by
  refine ⟨?_, fun i hi => processEAPOLReads_lt payload len i hi, ?_, ?_⟩
  · intro i hi
    unfold processDataFrameReads at hi
    have hoff := dataOffset_le payload
    by_cases h28 : len < 28
    · simp [h28] at hi
    · have hctl : ∀ j ∈ [1, 1] ++ (if rd payload 0 &&& 0x80 ≠ 0 then [0, 0] else [0]),
          j < len := by
        intro j hj
        split_ifs at hj <;> simp at hj <;> omega
      simp only [h28, if_false] at hi
      by_cases hfit : dataOffset payload + 8 > len
      · simp only [hfit, if_true] at hi
        exact hctl i hi
      · simp only [hfit, if_false] at hi
        have hwin : ∀ j ∈ matchReads payload (dataOffset payload) llcSnapEapol, j < len := by
          intro j hj
          have := matchReads_lt payload llcSnapEapol (dataOffset payload) j hj
          simp only [llcSnapEapol, List.length_cons, List.length_nil] at this
          omega
        by_cases hm : llcMatch payload (dataOffset payload) = true
        · simp only [hm, if_true, List.mem_append, List.mem_map] at hi
          rcases hi with ((hi | hi) | ⟨k, hk, rfl⟩) | hi
          · exact hctl i (List.mem_append.mpr hi)
          · exact hwin i hi
          · have := processEAPOLReads_lt _ _ k hk
            omega
          · split_ifs at hi
            · simp at hi; omega
            · simp at hi
        · simp only [hm, Bool.false_eq_true, if_false, List.mem_append] at hi
          rcases hi with hi | hi
          · exact hctl i (List.mem_append.mpr hi)
          · exact hwin i hi
  · intro other h
    unfold processDataFrame
    by_cases h28 : len < 28
    · simp [h28]
    · have eoff := dataOffset_congr payload other (h 0 (by omega)) (h 1 (by omega))
      have hoff := dataOffset_le payload
      simp only [h28, if_false, eoff]
      by_cases hfit : dataOffset payload + 8 > len
      · simp [hfit]
      · have em := llcMatch_congr payload other (dataOffset payload)
          (fun j hj => h _ (by omega))
        simp only [hfit, if_false, em]
        by_cases hm : llcMatch payload (dataOffset payload) = true
        · simp only [hm, if_true]
          apply processEAPOL_congr
          · intro i hi
            exact h _ (by omega)
          · simp only [readMac, shift, rd] at *
            rw [h 10 (by omega), h 11 (by omega), h 12 (by omega), h 13 (by omega),
              h 14 (by omega), h 15 (by omega)]
          · simp only [readMac, shift, rd] at *
            rw [h 4 (by omega), h 5 (by omega), h 6 (by omega), h 7 (by omega),
              h 8 (by omega), h 9 (by omega)]
        · simp [hm]
  · intro other h
    exact processEAPOL_congr s payload other len srcMac dstMac srcMac dstMac now h rfl rfl

/-! ## Registry upsert and the end-to-end scenario -/

/-- The lookup fails exactly when no entry carries the address. -/
theorem findNetworkFrom_neg (b : List Nat) (l : List DetectedNetwork) :
    ∀ i : Nat, (findNetworkFrom b l i < 0 ↔ ∀ n ∈ l, n.bssid ≠ b) := by
  induction l with
  | nil => intro i; simp [findNetworkFrom]
  | cons x xs ih =>
    intro i
    by_cases hx : x.bssid = b
    · simp only [findNetworkFrom, hx, if_true, List.mem_cons, forall_eq_or_imp, ne_eq,
        not_true_eq_false, false_and, iff_false, not_lt]
      omega
    · simp only [findNetworkFrom, hx, if_false, List.mem_cons, forall_eq_or_imp, ne_eq,
        not_false_eq_true, true_and]
      exact ih (i + 1)

/-- An entry appended after entries with other addresses is found at the old length. -/
theorem findNetworkFrom_append_hit (b : List Nat) (net : DetectedNetwork)
    (hnet : net.bssid = b) (l : List DetectedNetwork) :
    ∀ i : Nat, (∀ n ∈ l, n.bssid ≠ b) →
      findNetworkFrom b (l ++ [net]) i = ((i + l.length : Nat) : Int) := by
  induction l with
  | nil => intro i _; simp [findNetworkFrom, hnet]
  | cons x xs ih =>
    intro i h
    have hx : x.bssid ≠ b := h x (List.mem_cons_self _ _)
    have hstep : findNetworkFrom b (x :: xs ++ [net]) i
        = findNetworkFrom b (xs ++ [net]) (i + 1) := by
      show (if x.bssid = b then (i : Int) else findNetworkFrom b (xs ++ [net]) (i + 1)) = _
      rw [if_neg hx]
    rw [hstep, ih (i + 1) (fun n hn => h n (List.mem_cons_of_mem _ hn))]
    simp only [List.length_cons]
    congr 1
    omega

/-- Changing the last element of a list. -/
theorem modifyNth_append_last {α : Type} (f : α → α) (x : α) (l : List α) :
    modifyNth f (l ++ [x]) l.length = l ++ [f x] := by
  induction l with
  | nil => rfl
  | cons y ys ih => simp [modifyNth, ih]

/-- The walk for the DS Parameter Set element ends when the declared length is at
most 65281, so that its 16-bit offset cannot wrap; it changes at most the channel. -/
theorem channelWalk_total (payload : Buf) (len : Nat) (hlen : len ≤ 65281) :
    ∀ (fuel offset : Nat) (net : DetectedNetwork), 0 < fuel → len < offset + fuel →
      ∃ c : Nat, channelWalk fuel payload len offset net = some { net with channel := c } := by
  intro fuel
  induction fuel with
  | zero => intro offset net h0; omega
  | succ n ih =>
    intro offset net _ hfuel
    unfold channelWalk
    by_cases hg : offset + 2 < len
    · by_cases hds : rd payload offset = 3 ∧ rd payload (offset + 1) = 1
      · exact ⟨rd payload (offset + 2), by simp only [hg, hds, and_self, if_true]⟩
      · have hb : rd payload (offset + 1) < 256 := Nat.mod_lt _ (by decide)
        have hmod : (offset + 2 + rd payload (offset + 1)) % 65536
            = offset + 2 + rd payload (offset + 1) := Nat.mod_eq_of_lt (by omega)
        obtain ⟨c, hc⟩ := ih (offset + 2 + rd payload (offset + 1)) net (by omega) (by omega)
        exact ⟨c, by simp only [hg, hds, if_true, if_false, hmod, hc]⟩
    · exact ⟨net.channel, by simp only [hg, if_false]⟩

/-- The effect of `processBeacon` for an address not in the registry, given what its
three walks return. -/
theorem processBeacon_new (fuel : Nat) (s : OinkState) (payload : Buf) (len : Nat)
    (rssi : Int) (now : Nat) (name : List Nat) (feats : WiFiFeatures) (c : Nat)
    (h36 : 36 ≤ len) (hnew : findNetwork s (readMac (shift payload 16)) < 0)
    (hname : ssidWalk fuel payload len 36
        (DetectedNetwork.mk (readMac (shift payload 16)) (List.replicate 33 0) rssi 0 0
          zeroFeatures now 1 false)
      = some (DetectedNetwork.mk (readMac (shift payload 16)) name rssi 0 0
          zeroFeatures now 1 false))
    (hfeats : extractFromBeacon fuel payload len rssi = some feats)
    (hch : channelWalk fuel payload len 36
        (DetectedNetwork.mk (readMac (shift payload 16)) name rssi 0 0 feats now 1 false)
      = some (DetectedNetwork.mk (readMac (shift payload 16)) name rssi c 0 feats now 1
          false)) :
    processBeacon fuel s payload len rssi now
      = some { s with
          networks := s.networks
            ++ [DetectedNetwork.mk (readMac (shift payload 16)) name rssi
                  (if c = 0 then s.currentChannel else c) 0 feats now 1 false],
          newNetworkEvents := s.newNetworkEvents + 1 } := by
  have hn36 : ¬ len < 36 := by omega
  simp only [processBeacon, hn36, if_false, hnew, if_true, hname, Option.some_bind, hfeats, hch]
  by_cases hc : c = 0
  · simp [hc]
  · simp [hc]

/-- The effect of `processBeacon` for an address found in the registry. -/
theorem processBeacon_known (fuel : Nat) (s : OinkState) (payload : Buf) (len : Nat)
    (rssi : Int) (now : Nat) (h36 : 36 ≤ len)
    (hold : 0 ≤ findNetwork s (readMac (shift payload 16))) :
    processBeacon fuel s payload len rssi now
      = some { s with
          networks :=
            modifyNth
              (fun n => { n with rssi := rssi, lastSeen := now,
                                 beaconCount := (n.beaconCount + 1) % 65536 })
              s.networks (findNetwork s (readMac (shift payload 16))).toNat } := by
  have hn36 : ¬ len < 36 := by omega
  have hnn : ¬ findNetwork s (readMac (shift payload 16)) < 0 := by omega
  simp only [processBeacon, hn36, if_false, hnn]

/-- Two beacons from an address not yet in the registry, the first one short enough
for the 16-bit offsets not to wrap (`len <= 65281`): the first appends one entry, the
second updates that entry's signal strength and time stamp and counts it a second
time; name, channel and every other entry stay as they were, and the entry is the only
one with that address. -/
theorem processBeacon_upsert (fuel1 fuel2 : Nat) (s : OinkState) (p1 p2 : Buf)
    (len1 len2 : Nat) (r1 r2 : Int) (t1 t2 : Nat)
    (h1 : 36 ≤ len1) (hw : len1 ≤ 65281) (hfuel : len1 ≤ fuel1) (h2 : 36 ≤ len2)
    (hsame : readMac (shift p2 16) = readMac (shift p1 16))
    (hnew : findNetwork s (readMac (shift p1 16)) < 0) :
    ∃ (net : DetectedNetwork) (s1 : OinkState),
      processBeacon fuel1 s p1 len1 r1 t1 = some s1
        ∧ s1.networks = s.networks ++ [net]
        ∧ net.bssid = readMac (shift p1 16) ∧ net.rssi = r1 ∧ net.beaconCount = 1
        ∧ (∀ n ∈ s.networks, n.bssid ≠ readMac (shift p1 16))
        ∧ processBeacon fuel2 s1 p2 len2 r2 t2
            = some { s1 with
                networks := s.networks
                  ++ [{ net with rssi := r2, lastSeen := t2, beaconCount := 2 }] } := by
  have h16 : len1 < 65536 := by omega
  obtain ⟨name, hname⟩ := ssidWalk_total p1 len1 h16 fuel1 36
    (DetectedNetwork.mk (readMac (shift p1 16)) (List.replicate 33 0) r1 0 0
      zeroFeatures t1 1 false) h1 (by omega)
  obtain ⟨feats, hfeats⟩ := extractFromBeacon_total p1 len1 fuel1 r1 h1 h16 hfuel
  obtain ⟨c, hc⟩ := channelWalk_total p1 len1 hw fuel1 36
    (DetectedNetwork.mk (readMac (shift p1 16)) name r1 0 0 feats t1 1 false)
    (by omega) (by omega)
  have hfirst := processBeacon_new fuel1 s p1 len1 r1 t1 name feats c h1 hnew hname hfeats hc
  have hnone : ∀ n ∈ s.networks, n.bssid ≠ readMac (shift p1 16) :=
    (findNetworkFrom_neg _ _ 0).mp hnew
  refine ⟨_, _, hfirst, rfl, rfl, rfl, rfl, hnone, ?_⟩
  have hfind : findNetwork
      { s with
        networks := s.networks
          ++ [DetectedNetwork.mk (readMac (shift p1 16)) name r1
                (if c = 0 then s.currentChannel else c) 0 feats t1 1 false],
        newNetworkEvents := s.newNetworkEvents + 1 }
      (readMac (shift p2 16)) = (s.networks.length : Int) := by
    rw [hsame]
    have hhit := findNetworkFrom_append_hit (readMac (shift p1 16))
      (DetectedNetwork.mk (readMac (shift p1 16)) name r1
        (if c = 0 then s.currentChannel else c) 0 feats t1 1 false) rfl s.networks 0 hnone
    exact hhit.trans (by simp)
  rw [processBeacon_known fuel2 _ p2 len2 r2 t2 h2 (by rw [hfind]; omega), hfind]
  simp only [Int.toNat_ofNat, modifyNth_append_last]

/-- The bytes of `edgeBeacon`. -/
theorem rd_edgeBeacon (i : Nat) :
    rd edgeBeacon i
      = if i = 0 then 128 else if i = 1 then 34 else if i = 37 then 220 else 255 := by
  unfold rd edgeBeacon
  split_ifs <;> rfl

/-- On `edgeBeacon` the walk for the DS Parameter Set element never ends for any declared
length from 65282 on: it goes 36, 258, 515, ..., 65279, then wraps to 0 and is back at
36.  The bound 65281 of `channelWalk_total` is therefore the largest possible. -/
theorem channelWalk_edge_loops (len : Nat) (hlen : 65282 ≤ len) :
    ∀ (fuel offset : Nat) (net : DetectedNetwork),
      (offset = 0 ∨ offset = 36 ∨ ∃ k, k ≤ 253 ∧ offset = 258 + 257 * k) →
      channelWalk fuel edgeBeacon len offset net = none := by
  intro fuel
  induction fuel with
  | zero => intro offset net _; rfl
  | succ n ih =>
    intro offset net hoff
    rcases hoff with h | h | ⟨k, hk, h⟩
    · subst h
      have hg : 0 + 2 < len := by omega
      have hnext := ih 36 net (Or.inr (Or.inl rfl))
      simp only [channelWalk, hg, if_true, rd_edgeBeacon]
      simpa using hnext
    · subst h
      have hg : 36 + 2 < len := by omega
      have hnext := ih 258 net (Or.inr (Or.inr ⟨0, by omega, rfl⟩))
      simp only [channelWalk, hg, if_true, rd_edgeBeacon]
      simpa using hnext
    · have hg : offset + 2 < len := by omega
      have a0 : offset ≠ 0 := by omega
      have a1 : offset ≠ 1 := by omega
      have a2 : offset ≠ 37 := by omega
      have b0 : offset + 1 ≠ 0 := by omega
      have b1 : offset + 1 ≠ 1 := by omega
      have b2 : offset + 1 ≠ 37 := by omega
      have hnext := ih ((offset + 2 + 255) % 65536) net (by
        by_cases hk2 : k = 253
        · left; subst hk2; subst h; rfl
        · right; right
          exact ⟨k + 1, by omega, by rw [Nat.mod_eq_of_lt (by omega)]; omega⟩)
      simp only [channelWalk, hg, if_true, rd_edgeBeacon, a0, a1, a2, b0, b1, b2, if_false]
      simpa using hnext

/-- A frame of at least 28 bytes with the EAPOL LLC/SNAP header right after its header
is passed on to `processEAPOL`. -/
theorem processDataFrame_hit (s : OinkState) (payload : Buf) (len : Nat) (rssi : Int)
    (now : Nat) (h28 : 28 ≤ len) (hfit : headerLength payload + 8 ≤ len)
    (hllc : readBytes (shift payload (headerLength payload)) 8 = llcSnapEapol) :
    processDataFrame s payload len rssi now
      = processEAPOL s (shift payload (headerLength payload + 8))
          (len - (headerLength payload + 8)) (shift payload 10) (shift payload 4) now := by
  have hm := (llcMatch_iff payload (headerLength payload)).mpr hllc
  have a : ¬ len < 28 := by omega
  have b : ¬ headerLength payload + 8 > len := by omega
  simp only [processDataFrame, a, if_false, dataOffset_eq, b, hm, if_true, Nat.sub_sub]

/-- The bytes a buffer holds at an offset, read back. -/
theorem readBytes_of_holdsAt (p : Buf) (offset : Nat) (bytes : List Nat)
    (h : holdsAt p offset bytes) : readBytes (shift p offset) bytes.length = bytes := by
  apply List.ext_getElem
  · simp [readBytes]
  · intro i h1 h2
    have := h i h2
    simp only [readBytes, List.getElem_map, List.getElem_range]
    show p (offset + i) % 256 = _
    rw [show p (offset + i) % 256 = rd p (offset + i) from rfl, this]
    simp [List.getD_eq_getElem?_getD, List.getElem?_eq_getElem h2]

/-- C15: the end-to-end scenario.  Start from an empty registry and an empty Capture
Store.  A beacon (at most 65535 bytes, enough loop budget) from `AA:BB:CC:DD:EE:FF`
whose elements begin with SSID `TestNet` and go on, well formed, to a DS Parameter Set
of value 6 (the first of its kind), received at -40 dBm, leaves the registry with
exactly one entry: that address, name `TestNet`, channel 6, signal -40.  A data frame
sent by `AA:BB:CC:DD:EE:FF` to `11:22:33:44:55:66` that carries, after the LLC/SNAP
header, an EAPOL-Key payload of at least 99 bytes with Ack = 1 and MIC = 0 then makes
the Capture Store hold exactly one record: message 1, that access point, that station,
resolved name `TestNet`. -/
theorem C15_end_to_end (fuel : Nat) (s0 : OinkState) (beacon data : Buf)
    (blen dlen : Nat) (rssi2 : Int) (t1 t2 : Nat) (mid : List (Nat × List Nat))
    (hreg : s0.networks = []) (hcap : s0.handshakes = [])
    (hb16 : blen < 65536) (hfuel : blen ≤ fuel)
    (hbssid : readMac (shift beacon 16) = apAddress)
    (hies : holdsAt beacon 36 (encodeIEs ((0, testNetName) :: mid) ++ [3, 1, 6]))
    (hmid : ∀ e ∈ mid, ¬ (e.1 = 3 ∧ e.2.length = 1))
    (hblen : 36 + (encodeIEs ((0, testNetName) :: mid)).length + 3 ≤ blen)
    (hfit : headerLength data + 8 + 99 ≤ dlen)
    (hllc : readBytes (shift data (headerLength data)) 8 = llcSnapEapol)
    (hta : readMac (shift data 10) = apAddress)
    (hra : readMac (shift data 4) = staAddress)
    (htype : rd data (headerLength data + 8 + 1) = 3)
    (hack : (256 * rd data (headerLength data + 8 + 5)
              + rd data (headerLength data + 8 + 6)).testBit 7 = true)
    (hmic : (256 * rd data (headerLength data + 8 + 5)
              + rd data (headerLength data + 8 + 6)).testBit 8 = false) :
    ∃ (net : DetectedNetwork) (s1 : OinkState) (hs : CapturedHandshake),
      processBeacon fuel s0 beacon blen (-40) t1 = some s1
        ∧ s1.networks = [net]
        ∧ (net.bssid = apAddress ∧ cString net.ssid = testNetName ∧ net.channel = 6
            ∧ net.rssi = -40)
        ∧ s1.handshakes = []
        ∧ (processDataFrame s1 data dlen rssi2 t2).handshakes = [hs]
        ∧ (hs.messageNum = 1 ∧ hs.bssid = apAddress ∧ hs.station = staAddress
            ∧ cString hs.ssid = testNetName) := by
  have h36 : 36 ≤ blen := by omega
  have hnew : findNetwork s0 (readMac (shift beacon 16)) < 0 := by
    unfold findNetwork
    rw [hreg]
    exact (findNetworkFrom_neg _ _ 0).mpr (by simp)
  -- the SSID walk stops at the first element
  have hhead : holdsAt beacon 36 ([0, 7] ++ (testNetName ++ (encodeIEs mid ++ [3, 1, 6]))) := by
    simpa [encodeIEs, testNetName] using hies
  have e0 : rd beacon 36 = 0 := by simpa using holdsAt_left _ _ _ _ hhead 0 (by simp)
  have e1 : rd beacon (36 + 1) = 7 := by simpa using holdsAt_left _ _ _ _ hhead 1 (by simp)
  have hnamebytes : readBytes (shift beacon (36 + 2)) 7 = testNetName :=
    readBytes_of_holdsAt beacon (36 + 2) testNetName
      (holdsAt_left _ _ _ _ (holdsAt_right _ _ _ _ hhead))
  obtain ⟨n, rfl⟩ : ∃ n, fuel = n + 1 := ⟨fuel - 1, by omega⟩
  have henc : (encodeIEs ((0, testNetName) :: mid)).length = 9 + (encodeIEs mid).length := by
    simp only [encodeIEs, List.length_cons, List.length_append, testNetName, List.length_nil]
    omega
  have hname : ssidWalk (n + 1) beacon blen 36
      (DetectedNetwork.mk (readMac (shift beacon 16)) (List.replicate 33 0) (-40) 0 0
        zeroFeatures t1 1 false)
      = some (DetectedNetwork.mk (readMac (shift beacon 16))
          (testNetName ++ List.replicate 26 0) (-40) 0 0 zeroFeatures t1 1 false) := by
    have hg : 36 + 2 < blen := by omega
    have hb : ¬ 36 + 2 + 7 > blen := by omega
    simp only [ssidWalk, hg, if_true, e0, e1, hb, if_false, hnamebytes]
    rfl
  obtain ⟨feats, hfeats⟩ := extractFromBeacon_total beacon blen (n + 1) (-40) h36 hb16 hfuel
  have hpl := encodeIEs_length ((0, testNetName) :: mid)
  have hch := channelWalk_first beacon blen 6 hb16 ((0, testNetName) :: mid) (n + 1) 36
    (DetectedNetwork.mk (readMac (shift beacon 16)) (testNetName ++ List.replicate 26 0)
      (-40) 0 0 feats t1 1 false)
    (by
      intro e he
      rcases List.mem_cons.mp he with rfl | he
      · decide
      · exact hmid e he)
    hies hblen (by omega)
  have hfirst := processBeacon_new (n + 1) s0 beacon blen (-40) t1 _ feats 6 h36 hnew hname
    hfeats hch
  rw [hbssid] at hfirst
  -- the data frame
  have hhit := processDataFrame_hit
    { s0 with
      networks := s0.networks
        ++ [DetectedNetwork.mk apAddress (testNetName ++ List.replicate 26 0) (-40)
              (if 6 = 0 then s0.currentChannel else 6) 0 feats t1 1 false],
      newNetworkEvents := s0.newNetworkEvents + 1 }
    data dlen rssi2 t2 (by have := headerLength_le data; omega) (by omega) hllc
  have hm : messageNumOf (keyInfoOf (shift data (headerLength data + 8))) = 1 := by
    have r5 : rd (shift data (headerLength data + 8)) 5
        = rd data (headerLength data + 8 + 5) := rfl
    have r6 : rd (shift data (headerLength data + 8)) 6
        = rd data (headerLength data + 8 + 6) := rfl
    rw [messageNumOf_eq, keyInfoOf_eq, r5, r6]
    simp [hack, hmic]
  obtain ⟨hs, he, hn, hb, hst, -, -, hssid, -⟩ := processEAPOL_accept
    { s0 with
      networks := s0.networks
        ++ [DetectedNetwork.mk apAddress (testNetName ++ List.replicate 26 0) (-40)
              (if 6 = 0 then s0.currentChannel else 6) 0 feats t1 1 false],
      newNetworkEvents := s0.newNetworkEvents + 1 }
    (shift data (headerLength data + 8)) (dlen - (headerLength data + 8))
    (shift data 10) (shift data 4) t2 (by omega) htype (by rw [hm]; decide)
  rw [hm] at hn
  have hbss : hs.bssid = apAddress := by
    rw [hb, hn]; simpa using hta
  have hsta : hs.station = staAddress := by
    rw [hst, hn]; simpa using hra
  refine ⟨_, _, hs, hfirst, by rw [hreg]; rfl, ⟨rfl, by rfl, rfl, rfl⟩, hcap, ?_,
    ⟨hn, hbss, hsta, ?_⟩⟩
  · rw [hhit, he]
    show s0.handshakes ++ [hs] = [hs]
    rw [hcap]; rfl
  · rw [hssid, hbss]
    simp only [findNetwork, hreg, List.nil_append]
    rfl

/-! ## Instances of the claims above -/

/-- Bytes appended to a list do not change what the buffer holds below its length. -/
theorem ofList_append_agree (l extra : List Nat) (i : Nat) (hi : i < l.length) :
    rd (ofList (l ++ extra)) i = rd (ofList l) i := by
  simp [rd, ofList, List.getD_eq_getElem?_getD, List.getElem?_append_left hi]

/-- C11 (witness): the 131-byte scenario frame is passed on with header length 24. -/
theorem C11_data_frame_dispatch_witness :
    processDataFrame initialState scenarioData 131 (-50) 9
      = processEAPOL initialState (shift scenarioData (headerLength scenarioData + 8))
          (131 - (headerLength scenarioData + 8)) (shift scenarioData 10)
          (shift scenarioData 4) 9 :=
  (C11_data_frame_dispatch initialState scenarioData 131 (-50) 9).1
    ⟨by decide, by decide, by rfl⟩

/-- C12 (witness): three bytes lying beyond the 131 declared bytes of the scenario
frame make no difference. -/
theorem C12_data_path_reads_in_bounds_witness :
    processDataFrame initialState (ofList (scenarioDataBytes ++ [1, 2, 3])) 131 (-50) 9
      = processDataFrame initialState scenarioData 131 (-50) 9 :=
  (C12_data_path_reads_in_bounds initialState scenarioData 131 (-50) (macBuf 1) (macBuf 2)
      9).2.2.1
    (ofList (scenarioDataBytes ++ [1, 2, 3]))
    (fun i hi => ofList_append_agree scenarioDataBytes [1, 2, 3] i hi)

/-- C14 (witness): a sweep at 61001 removes the entry last seen at 1000 and keeps the
one last seen at 40000. -/
theorem C14_eviction_sweep_witness :
    (update sweepState 61001 500).networks = [{ sampleNet 2 11 with lastSeen := 40000 }] :=
  (C14_eviction_sweep sweepState 61001 500 rfl (by decide)).1.trans (by decide)

/-- C15 (witness): the 54-byte beacon and the 131-byte data frame of the scenario. -/
theorem C15_end_to_end_witness :
    ∃ (net : DetectedNetwork) (s1 : OinkState) (hs : CapturedHandshake),
      processBeacon 54 initialState scenarioBeacon 54 (-40) 7 = some s1
        ∧ s1.networks = [net]
        ∧ (net.bssid = apAddress ∧ cString net.ssid = testNetName ∧ net.channel = 6
            ∧ net.rssi = -40)
        ∧ s1.handshakes = []
        ∧ (processDataFrame s1 scenarioData 131 (-50) 9).handshakes = [hs]
        ∧ (hs.messageNum = 1 ∧ hs.bssid = apAddress ∧ hs.station = staAddress
            ∧ cString hs.ssid = testNetName) :=
  C15_end_to_end 54 initialState scenarioBeacon scenarioData 54 131 (-50) 7 9
    [(1, [0x82, 0x84, 0x8B, 0x96])] rfl rfl (by decide) (by decide) (by decide)
    (by unfold holdsAt; decide) (by decide) (by decide) (by decide) (by rfl) (by decide)
    (by decide) (by decide) (by decide) (by decide)

/-! ## Mode stop, deauth start, channel frame and stored payload -/

/-- C21 (as amended): from every running state, `stop()` clears the deauth-active flag,
the scanning flag and the running flag and switches promiscuous mode off, and changes
nothing else: the hop-enabled flag, the target index and the registry with its target
flags are as they were. -/
theorem C21_stop_keeps_target (s : OinkState) (hrun : s.running = true) :
    stop s = { s with deauthing := false, scanning := false, promiscuous := false,
                      running := false }
      ∧ (stop s).deauthing = false
      ∧ (stop s).running = false
      ∧ (stop s).channelHopping = s.channelHopping
      ∧ (stop s).targetIndex = s.targetIndex
      ∧ (stop s).networks = s.networks := by
  have h : stop s = { s with deauthing := false, scanning := false, promiscuous := false,
                             running := false } := by
    simp [stop, hrun]
  rw [h]
  exact ⟨rfl, rfl, rfl, rfl, rfl, rfl⟩

/-- C21 (witness): stopping the mode while locked on entry 0. -/
theorem C21_stop_keeps_target_witness :
    (stop lockedState).deauthing = false
      ∧ (stop lockedState).channelHopping = lockedState.channelHopping
      ∧ (stop lockedState).targetIndex = lockedState.targetIndex :=
  ⟨(C21_stop_keeps_target lockedState (by decide)).2.1,
   (C21_stop_keeps_target lockedState (by decide)).2.2.2.1,
   (C21_stop_keeps_target lockedState (by decide)).2.2.2.2.1⟩

/-- C21 (counterexample): in the running state locked on entry 0 of two entries,
`stop()` leaves channel hopping disabled, the target index at 0 and entry 0 flagged. -/
theorem C21_counterexample :
    lockedState.running = true
      ∧ (stop lockedState).channelHopping = false
      ∧ (stop lockedState).targetIndex = 0
      ∧ (stop lockedState).networks.map (fun n => n.isTarget) = [true, false]
      ∧ (getTarget (stop lockedState)).map (fun n => n.bssid) = some [1, 1, 1, 1, 1, 1] := by
  decide

/-- Without the running flag or with a negative target index `startDeauth()` changes
nothing. -/
theorem startDeauth_idle (s : OinkState) (h : s.running = false ∨ s.targetIndex < 0) :
    startDeauth s = s := by
  unfold startDeauth
  rcases h with h | h <;> simp [h]

/-- C23 (code at the failing input): start the mode, take in two beacons, select entry
1 and let the sweep of `update()` at time 100000 remove entry 0.  The target index is
still 1 while the registry has one entry, so `getTarget()` returns null; yet
`startDeauth()` sets the deauth-active flag, and the callback then indexes outside the
registry. -/
theorem C23_startDeauth_with_stale_index :
    (run (twoBeacons ++ [Op.selectTarget 1, Op.update 100000 500]) (init initialState)).map
        (fun s => (s.running, s.targetIndex, s.networks.length, getTarget s, s.deauthing,
                   (startDeauth s).deauthing, deauthTick (startDeauth s) 100200))
      = some (true, 1, 1, none, false, true, none) := by
  rfl

/-- The condition under which `update` hops has four parts; when any of them fails the
channel, the hop index and the radio channel stay as they are. -/
theorem update_channel_unchanged (s : OinkState) (now hopInterval : Nat)
    (h : ¬ (s.running = true ∧ s.channelHopping = true ∧ s.deauthing = false
            ∧ u32sub now s.lastHopTime > hopInterval)) :
    (update s now hopInterval).currentChannel = s.currentChannel
      ∧ (update s now hopInterval).currentHopIndex = s.currentHopIndex
      ∧ (update s now hopInterval).radioChannel = s.radioChannel := by
  by_cases hr : s.running = true
  · by_cases hh : s.channelHopping = true
    · by_cases hd : s.deauthing = false
      · have hdue : ¬ u32sub now s.lastHopTime > hopInterval := fun hdue =>
          h ⟨hr, hh, hd, hdue⟩
        have hhop : updateHop s now hopInterval = s := by
          unfold updateHop
          simp [hh, hd, hdue]
        unfold update
        simp only [hr, Bool.not_true, Bool.false_eq_true, if_false, hhop]
        exact updateSweep_channel s now
      · exact update_keeps_channel s now hopInterval (Or.inl (by simpa using hd))
    · exact update_keeps_channel s now hopInterval (Or.inr (by simpa using hh))
  · unfold update
    simp [hr]

/-- C24: `update()` changes the current channel, the hop index or the radio channel
only in a running state with hopping enabled, deauthing not active and more than the
hop interval elapsed since the last hop (and then it performs exactly one hop); in every
other case the three are unchanged, in particular while deauthing is active and right
after `selectTarget` has locked the controller on a target. -/
theorem C24_update_channel_frame (s : OinkState) (now hopInterval : Nat) :
    (((update s now hopInterval).currentChannel ≠ s.currentChannel
        ∨ (update s now hopInterval).currentHopIndex ≠ s.currentHopIndex
        ∨ (update s now hopInterval).radioChannel ≠ s.radioChannel) →
      s.running = true ∧ s.channelHopping = true ∧ s.deauthing = false
        ∧ u32sub now s.lastHopTime > hopInterval)
    ∧ (¬ (s.running = true ∧ s.channelHopping = true ∧ s.deauthing = false
            ∧ u32sub now s.lastHopTime > hopInterval) →
        (update s now hopInterval).currentChannel = s.currentChannel
          ∧ (update s now hopInterval).currentHopIndex = s.currentHopIndex
          ∧ (update s now hopInterval).radioChannel = s.radioChannel)
    ∧ ((s.running = true ∧ s.channelHopping = true ∧ s.deauthing = false
            ∧ u32sub now s.lastHopTime > hopInterval) →
        (update s now hopInterval).currentHopIndex = (s.currentHopIndex + 1) % 13
          ∧ (update s now hopInterval).currentChannel
              = CHANNEL_HOP_ORDER.getD ((s.currentHopIndex + 1) % 13) 0)
    ∧ (s.deauthing = true →
        (update s now hopInterval).currentChannel = s.currentChannel
          ∧ (update s now hopInterval).currentHopIndex = s.currentHopIndex)
    ∧ (∀ (i : Nat) (n : DetectedNetwork), s.networks[i]? = some n →
        (update (selectTarget s i) now hopInterval).currentChannel
            = (selectTarget s i).currentChannel
          ∧ (update (selectTarget s i) now hopInterval).currentHopIndex
            = (selectTarget s i).currentHopIndex) := by
  refine ⟨fun hch => ?_, update_channel_unchanged s now hopInterval, fun h => ?_, fun hd => ?_,
    fun i n hn => ?_⟩
  · by_contra hcon
    obtain ⟨h1, h2, h3⟩ := update_channel_unchanged s now hopInterval hcon
    rcases hch with h | h | h
    · exact h h1
    · exact h h2
    · exact h h3
  · have := update_hops s now hopInterval h.1 h.2.1 h.2.2.1 h.2.2.2
    exact ⟨this.1, this.2.1⟩
  · have := update_keeps_channel s now hopInterval (Or.inl hd)
    exact ⟨this.1, this.2.1⟩
  · have hi : i < s.networks.length := by
      rcases Nat.lt_or_ge i s.networks.length with h | h
      · exact h
      · rw [List.getElem?_eq_none h] at hn; cases hn
    have hv : 0 ≤ (i : Int) ∧ (i : Int) < (s.networks.length : Int) := by
      constructor <;> omega
    have hoff : (selectTarget s i).channelHopping = false := by
      have hget : (modifyNth (fun n => { n with isTarget := true }) s.networks i)[i]?
          = some { n with isTarget := true } := by
        rw [modifyNth_getElem?_eq, hn]; rfl
      unfold selectTarget
      simp only [hv, and_self, if_true, Int.toNat_ofNat, hget]
      rw [(setChannel_spec _ _).2.2.1]
    have := update_keeps_channel (selectTarget s i) now hopInterval (Or.inr hoff)
    exact ⟨this.1, this.2.1⟩

/-- C24 (witness): in the deauthing state an `update()` long after the hop interval
leaves the channel and the hop index alone. -/
theorem C24_update_channel_frame_witness :
    (update deauthingState 100000 500).currentChannel = deauthingState.currentChannel
      ∧ (update deauthingState 100000 500).currentHopIndex
          = deauthingState.currentHopIndex :=
  (C24_update_channel_frame deauthingState 100000 500).2.2.2.1 (by decide)

/-- What a record appended by `processEAPOL` holds of the payload. -/
theorem processEAPOL_record (s : OinkState) (payload : Buf) (len : Nat)
    (srcMac dstMac : Buf) (now : Nat) (hs : CapturedHandshake)
    (hacc : (processEAPOL s payload len srcMac dstMac now).handshakes = s.handshakes ++ [hs]) :
    99 ≤ len ∧ hs.eapolLen = min 512 len
      ∧ hs.eapolData
          = readBytes payload (min 512 len) ++ List.replicate (512 - min 512 len) 0 := by
  by_cases h : len < 4 ∨ rd payload 1 ≠ 3 ∨ len < 99 ∨ messageNumOf (keyInfoOf payload) = 0
  · rw [processEAPOL_decline s payload len srcMac dstMac now h] at hacc
    have := congrArg List.length hacc
    simp at this
  · simp only [not_or, not_lt, ne_eq, not_not] at h
    obtain ⟨hs0, he, -, -, -, hl, -, -, hd⟩ :=
      processEAPOL_accept s payload len srcMac dstMac now h.2.2.1 h.2.1 h.2.2.2
    rw [he] at hacc
    have heq : hs0 = hs := by
      have := List.append_cancel_left hacc
      simpa using this
    subst heq
    exact ⟨h.2.2.1, hl, hd⟩

/-- C25: for every record that `processEAPOL` appends for a payload of length `len`,
`eapolLen = min(512, len)`, so `99 <= eapolLen <= 512`; the array `eapolData` has 512
bytes, and its first `eapolLen` bytes are the first `eapolLen` bytes of the payload. -/
theorem C25_payload_bounded (s : OinkState) (payload : Buf) (len : Nat)
    (srcMac dstMac : Buf) (now : Nat) (hs : CapturedHandshake)
    (hacc : (processEAPOL s payload len srcMac dstMac now).handshakes = s.handshakes ++ [hs]) :
    hs.eapolLen = min 512 len
      ∧ (99 ≤ hs.eapolLen ∧ hs.eapolLen ≤ 512)
      ∧ hs.eapolData.length = 512
      ∧ hs.eapolData.take hs.eapolLen = readBytes payload hs.eapolLen
      ∧ (∀ i, i < hs.eapolLen → hs.eapolData.getD i 0 = rd payload i) := by
  obtain ⟨h99, hl, hd⟩ := processEAPOL_record s payload len srcMac dstMac now hs hacc
  have hlen : (readBytes payload (min 512 len)).length = min 512 len := by
    simp [readBytes]
  have htake : hs.eapolData.take hs.eapolLen = readBytes payload hs.eapolLen := by
    rw [hd, hl, List.take_append_of_le_length (by rw [hlen]), List.take_of_length_le (by rw [hlen])]
  refine ⟨hl, ⟨by omega, by omega⟩, ?_, htake, ?_⟩
  · rw [hd, List.length_append, hlen, List.length_replicate]
    omega
  · intro i hi
    have h1 : i < (readBytes payload (min 512 len)).length := by rw [hlen, ← hl]; exact hi
    rw [hd, List.getD_eq_getElem?_getD, List.getElem?_append_left h1,
      List.getElem?_eq_getElem h1]
    simp [readBytes]

/-- C25 (witness): the 99-byte message-1 frame is stored whole. -/
theorem C25_payload_bounded_witness :
    m1Record.eapolLen = min 512 99 ∧ (99 ≤ m1Record.eapolLen ∧ m1Record.eapolLen ≤ 512) :=
  ⟨(C25_payload_bounded initialState (keyFrame 0 138) 99 (macBuf 17) (macBuf 170) 5 m1Record
      (by rfl)).1,
   (C25_payload_bounded initialState (keyFrame 0 138) 99 (macBuf 17) (macBuf 170) 5 m1Record
      (by rfl)).2.1⟩

/-! ## Registry invariants -/

/-- Changing an element in a way a projection does not see leaves the projected list
as it is. -/
theorem modifyNth_map {α β : Type} (f : α → α) (g : α → β) (hg : ∀ x, g (f x) = g x)
    (l : List α) (n : Nat) : (modifyNth f l n).map g = l.map g := by
  induction l generalizing n with
  | nil => rfl
  | cons x xs ih => cases n <;> simp [modifyNth, ih, hg]

/-- The registry after `selectTarget`: the old one, or the old one with one more flag. -/
theorem selectTarget_networks (s : OinkState) (index : Int) :
    (selectTarget s index).networks = s.networks
      ∨ (selectTarget s index).networks
          = modifyNth (fun n => { n with isTarget := true }) s.networks index.toNat := by
  by_cases h : 0 ≤ index ∧ index < (s.networks.length : Int)
  · right
    simp only [selectTarget, h, and_self, if_true]
    split
    · exact (setChannel_networks _ _).1
    · rfl
  · left
    simp only [selectTarget, h, if_false]

/-- The registry after `clearTarget`: the old one, or the old one with one flag less. -/
theorem clearTarget_networks (s : OinkState) :
    (clearTarget s).networks = s.networks
      ∨ (clearTarget s).networks
          = modifyNth (fun n => { n with isTarget := false }) s.networks
              s.targetIndex.toNat := by
  by_cases h : 0 ≤ s.targetIndex ∧ s.targetIndex < (s.networks.length : Int)
  · right
    simp only [clearTarget, h, and_self, if_true]
  · left
    simp only [clearTarget, h, if_false]

/-- The function `selectTarget` changes no address in the registry. -/
theorem selectTarget_bssids (s : OinkState) (index : Int) :
    (selectTarget s index).networks.map (fun n => n.bssid)
      = s.networks.map (fun n => n.bssid) := by
  rcases selectTarget_networks s index with h | h
  · rw [h]
  · rw [h]
    exact modifyNth_map (fun n : DetectedNetwork => { n with isTarget := true })
      (fun n => n.bssid)
      (fun _ => rfl) _ _

/-- The function `clearTarget` changes no address in the registry. -/
theorem clearTarget_bssids (s : OinkState) :
    (clearTarget s).networks.map (fun n => n.bssid) = s.networks.map (fun n => n.bssid) := by
  rcases clearTarget_networks s with h | h
  · rw [h]
  · rw [h]
    exact modifyNth_map (fun n : DetectedNetwork => { n with isTarget := false })
      (fun n => n.bssid)
      (fun _ => rfl) _ _

/-- The registry after `update` is the old one or the swept one. -/
theorem update_networks_cases (s : OinkState) (now hopInterval : Nat) :
    (update s now hopInterval).networks = s.networks
      ∨ (update s now hopInterval).networks = sweepStale now s.networks := by
  have h1 : (updateHop s now hopInterval).networks = s.networks := by
    unfold updateHop
    split_ifs <;> rfl
  unfold update updateSweep
  split_ifs
  · exact Or.inl rfl
  · exact Or.inr (by rw [← h1])
  · exact Or.inl h1

/-- The function `processEAPOL` leaves the registry alone. -/
theorem processEAPOL_networks (s : OinkState) (payload : Buf) (len : Nat)
    (srcMac dstMac : Buf) (now : Nat) :
    (processEAPOL s payload len srcMac dstMac now).networks = s.networks := by
  by_cases h : len < 4 ∨ rd payload 1 ≠ 3 ∨ len < 99 ∨ messageNumOf (keyInfoOf payload) = 0
  · rw [processEAPOL_decline s payload len srcMac dstMac now h]
  · simp only [not_or, not_lt, ne_eq, not_not] at h
    obtain ⟨hs, he, -⟩ :=
      processEAPOL_accept s payload len srcMac dstMac now h.2.2.1 h.2.1 h.2.2.2
    rw [he]

/-- The function `processDataFrame` leaves the registry alone. -/
theorem processDataFrame_networks (s : OinkState) (payload : Buf) (len : Nat) (rssi : Int)
    (now : Nat) : (processDataFrame s payload len rssi now).networks = s.networks := by
  simp only [processDataFrame]
  split_ifs
  · rfl
  · rfl
  · exact processEAPOL_networks _ _ _ _ _ _
  · rfl

/-- The deauth block of the callback leaves the registry alone. -/
theorem deauthTick_networks (s s' : OinkState) (now : Nat) (h : deauthTick s now = some s') :
    s'.networks = s.networks := by
  unfold deauthTick at h
  split_ifs at h
  · split at h
    · cases h
    · cases h; rfl
  · cases h; rfl
  · cases h; rfl

/-- What a returning `processBeacon` does to the registry: nothing (short frame), an
update of one entry that keeps its address, or one new entry, with the address of the
frame, appended when no entry has that address. -/
theorem processBeacon_networks (fuel : Nat) (s s' : OinkState) (payload : Buf) (len : Nat)
    (rssi : Int) (now : Nat) (h : processBeacon fuel s payload len rssi now = some s') :
    s'.networks = s.networks
      ∨ (0 ≤ findNetwork s (readMac (shift payload 16))
          ∧ s'.networks
              = modifyNth
                  (fun n => { n with rssi := rssi, lastSeen := now,
                                     beaconCount := (n.beaconCount + 1) % 65536 })
                  s.networks (findNetwork s (readMac (shift payload 16))).toNat)
      ∨ (36 ≤ len ∧ findNetwork s (readMac (shift payload 16)) < 0
          ∧ ∃ net : DetectedNetwork,
              net.bssid = readMac (shift payload 16) ∧ net.isTarget = false
                ∧ s'.networks = s.networks ++ [net]) := by
  unfold processBeacon at h
  by_cases h36 : len < 36
  · simp only [h36, if_true] at h
    cases h
    exact Or.inl rfl
  · simp only [h36, if_false] at h
    by_cases hnew : findNetwork s (readMac (shift payload 16)) < 0
    · simp only [hnew, if_true] at h
      right; right
      refine ⟨by omega, hnew, ?_⟩
      obtain ⟨net1, h1, h⟩ := Option.bind_eq_some.mp h
      obtain ⟨feats, h2, h⟩ := Option.bind_eq_some.mp h
      obtain ⟨net2, h3, h⟩ := Option.bind_eq_some.mp h
      have hs1 : ∀ (f o : Nat) (n m : DetectedNetwork), ssidWalk f payload len o n = some m →
          m.bssid = n.bssid ∧ m.isTarget = n.isTarget := by
        intro f
        induction f with
        | zero => intro o n m hm; simp [ssidWalk] at hm
        | succ k ih =>
          intro o n m hm
          simp only [ssidWalk] at hm
          split_ifs at hm
          · cases hm; exact ⟨rfl, rfl⟩
          · cases hm; exact ⟨rfl, rfl⟩
          · exact ih _ _ _ hm
          · cases hm; exact ⟨rfl, rfl⟩
      have hs3 : ∀ (f o : Nat) (n m : DetectedNetwork), channelWalk f payload len o n = some m →
          m.bssid = n.bssid ∧ m.isTarget = n.isTarget := by
        intro f
        induction f with
        | zero => intro o n m hm; simp [channelWalk] at hm
        | succ k ih =>
          intro o n m hm
          simp only [channelWalk] at hm
          split_ifs at hm
          · cases hm; exact ⟨rfl, rfl⟩
          · exact ih _ _ _ hm
          · cases hm; exact ⟨rfl, rfl⟩
      have e1 := hs1 _ _ _ _ h1
      have e3 := hs3 _ _ _ _ h3
      cases h
      refine ⟨_, ?_, ?_, rfl⟩
      · split_ifs
        · exact e3.1.trans e1.1
        · exact e3.1.trans e1.1
      · split_ifs
        · exact e3.2.trans e1.2
        · exact e3.2.trans e1.2
    · simp only [hnew, if_false] at h
      cases h
      exact Or.inr (Or.inl ⟨by omega, rfl⟩)

/-- The sweep keeps the addresses distinct. -/
theorem sweepStale_nodup (now : Nat) (l : List DetectedNetwork)
    (h : (l.map (fun n => n.bssid)).Nodup) :
    ((sweepStale now l).map (fun n => n.bssid)).Nodup := by
  rw [sweepStale_eq_filter]
  exact h.sublist ((List.filter_sublist l).map _)

/-- A returning `processBeacon` keeps the addresses distinct. -/
theorem processBeacon_nodup (fuel : Nat) (s s' : OinkState) (payload : Buf) (len : Nat)
    (rssi : Int) (now : Nat) (h : processBeacon fuel s payload len rssi now = some s')
    (hinv : (s.networks.map (fun n => n.bssid)).Nodup) :
    (s'.networks.map (fun n => n.bssid)).Nodup := by
  rcases processBeacon_networks fuel s s' payload len rssi now h with h1 | ⟨-, h1⟩ | ⟨-, hnew, net, hb, -, h1⟩
  · rw [h1]; exact hinv
  · rw [h1, modifyNth_map
      (fun n : DetectedNetwork => { n with rssi := rssi, lastSeen := now,
                                           beaconCount := (n.beaconCount + 1) % 65536 })
      (fun n => n.bssid) (fun _ => rfl)]
    exact hinv
  · rw [h1, List.map_append, List.map_singleton, hb]
    have hnone := (findNetworkFrom_neg _ _ 0).mp hnew
    apply List.Nodup.append hinv (List.nodup_singleton _)
    intro b hb1 hb2
    rw [List.mem_singleton] at hb2
    obtain ⟨n, hn, hnb⟩ := List.mem_map.mp hb1
    exact hnone n hn (hnb.trans hb2)

/-- Every call keeps the addresses of the registry distinct. -/
theorem applyOp_nodup (s s' : OinkState) (op : Op) (h : applyOp s op = some s')
    (hinv : (s.networks.map (fun n => n.bssid)).Nodup) :
    (s'.networks.map (fun n => n.bssid)).Nodup := by
  cases op with
  | start now =>
    cases h
    unfold start
    split_ifs <;> exact hinv
  | stop =>
    cases h
    unfold stop
    split_ifs <;> exact hinv
  | update now hopInterval =>
    cases h
    rcases update_networks_cases s now hopInterval with h1 | h1
    · rw [h1]; exact hinv
    · rw [h1]; exact sweepStale_nodup now _ hinv
  | selectTarget index => cases h; rw [selectTarget_bssids]; exact hinv
  | clearTarget => cases h; rw [clearTarget_bssids]; exact hinv
  | startDeauth =>
    cases h
    unfold startDeauth
    split_ifs <;> exact hinv
  | stopDeauth => cases h; exact hinv
  | startScan => cases h; exact hinv
  | stopScan => cases h; exact hinv
  | enableChannelHop enable => cases h; exact hinv
  | beacon fuel payload len rssi now =>
    exact processBeacon_nodup fuel s s' payload len rssi now h hinv
  | dataFrame payload len rssi now =>
    cases h
    rw [processDataFrame_networks]; exact hinv
  | callback fuel payload len rssi type now =>
    cases type with
    | mgmt =>
      simp only [applyOp, promiscuousCallback] at h
      split_ifs at h
      · cases h; exact hinv
      · cases h; exact hinv
      · obtain ⟨s2, h2, h3⟩ := Option.bind_eq_some.mp h
        rw [deauthTick_networks _ _ _ h3]
        exact processBeacon_nodup fuel _ s2 payload len rssi now h2 hinv
      · simp only [Option.some_bind] at h
        rw [deauthTick_networks _ _ _ h]
        exact hinv
    | data =>
      simp only [applyOp, promiscuousCallback] at h
      split_ifs at h
      · cases h; exact hinv
      · cases h; exact hinv
      · simp only [Option.some_bind] at h
        rw [deauthTick_networks _ _ _ h, processDataFrame_networks]
        exact hinv
    | ctrl =>
      simp only [applyOp, promiscuousCallback] at h
      split_ifs at h
      · cases h; exact hinv
      · cases h; exact hinv
      · simp only [Option.some_bind] at h
        rw [deauthTick_networks _ _ _ h]
        exact hinv
    | misc =>
      simp only [applyOp, promiscuousCallback] at h
      split_ifs at h
      · cases h; exact hinv
      · cases h; exact hinv
      · simp only [Option.some_bind] at h
        rw [deauthTick_networks _ _ _ h]
        exact hinv

/-- A sequence of calls keeps the addresses of the registry distinct. -/
theorem run_nodup (ops : List Op) :
    ∀ (s s' : OinkState), run ops s = some s' →
      (s.networks.map (fun n => n.bssid)).Nodup →
      (s'.networks.map (fun n => n.bssid)).Nodup := by
  induction ops with
  | nil => intro s s' h hinv; cases h; exact hinv
  | cons op rest ih =>
    intro s s' h hinv
    obtain ⟨s1, h1, h2⟩ := Option.bind_eq_some.mp h
    exact ih s1 s' h2 (applyOp_nodup s s1 op h1 hinv)

/-- C26: in every state reached from `init()` by any sequence of calls (`processBeacon`,
`update()` with its eviction sweep, `selectTarget`, `clearTarget`, and also mode start
and stop, scan and deauth control, data frames and the radio callback), no two registry
entries have the same BSSID. -/
theorem C26_bssid_unique (s0 s : OinkState) (ops : List Op)
    (hreach : run ops (init s0) = some s) :
    (s.networks.map (fun n => n.bssid)).Nodup
      ∧ ∀ i j : Nat, ∀ a b : DetectedNetwork, s.networks[i]? = some a → s.networks[j]? = some b →
          a.bssid = b.bssid → i = j := by
  have hnd := run_nodup ops (init s0) s hreach (by simp [init])
  refine ⟨hnd, ?_⟩
  intro i j a b ha hb hab
  have hi : i < s.networks.length := by
    rcases Nat.lt_or_ge i s.networks.length with h | h
    · exact h
    · rw [List.getElem?_eq_none h] at ha; cases ha
  have hj : j < s.networks.length := by
    rcases Nat.lt_or_ge j s.networks.length with h | h
    · exact h
    · rw [List.getElem?_eq_none h] at hb; cases hb
  have hi' : i < (s.networks.map (fun n => n.bssid)).length := by simpa using hi
  have hj' : j < (s.networks.map (fun n => n.bssid)).length := by simpa using hj
  have e1 : (s.networks.map (fun n => n.bssid))[i] = a.bssid := by
    rw [List.getElem?_eq_getElem hi] at ha
    simp only [List.getElem_map]
    rw [Option.some.inj ha]
  have e2 : (s.networks.map (fun n => n.bssid))[j] = b.bssid := by
    rw [List.getElem?_eq_getElem hj] at hb
    simp only [List.getElem_map]
    rw [Option.some.inj hb]
  exact (List.Nodup.getElem_inj_iff hnd).mp (by rw [e1, e2, hab])

/-- C26 (witness): the registry of two entries built by two beacons. -/
theorem C26_bssid_unique_witness :
    (afterTwoBeacons.networks.map (fun n => n.bssid)).Nodup :=
  (C26_bssid_unique initialState afterTwoBeacons twoBeacons (by rfl)).1

/-- C22 (as amended): `processBeacon` never consults a maximum.  For every state and
every beacon of 36 to 65281 bytes from an address not in the registry (enough loop
budget), it returns with the old registry, unchanged, plus one entry for that address
appended: nothing is evicted and the registry grows by one, so a registry that holds
`maxNetworks` entries or more holds more than `maxNetworks` afterwards. -/
theorem C22_registry_grows_by_one (fuel : Nat) (s : OinkState) (payload : Buf) (len : Nat)
    (rssi : Int) (now : Nat) (h36 : 36 ≤ len) (hw : len ≤ 65281) (hfuel : len ≤ fuel)
    (hnew : findNetwork s (readMac (shift payload 16)) < 0) :
    ∃ (s' : OinkState) (net : DetectedNetwork),
      processBeacon fuel s payload len rssi now = some s'
        ∧ s'.networks = s.networks ++ [net]
        ∧ net.bssid = readMac (shift payload 16)
        ∧ s'.networks.length = s.networks.length + 1
        ∧ ∀ maxNetworks : Nat, maxNetworks ≤ s.networks.length →
            maxNetworks < s'.networks.length := by
  obtain ⟨net, s', hs', hnets, hb, -⟩ :=
    processBeacon_upsert fuel fuel s payload payload len len rssi rssi now now h36 hw hfuel
      h36 rfl hnew
  have hlen : s'.networks.length = s.networks.length + 1 := by rw [hnets]; simp
  exact ⟨s', net, hs', hnets, hb, hlen, fun m hm => by omega⟩

/-- C22 (witness): the registry built by 50 beacons holds the default maximum of 50
entries; the beacon from `33:..:33`, an address it does not contain, makes it 51. -/
theorem C22_registry_grows_by_one_witness :
    (fullRegistry.networks.length = 50 ∧ maxNetworksDefault ≤ fullRegistry.networks.length)
    ∧ ∃ (s' : OinkState) (net : DetectedNetwork),
        processBeacon 39 fullRegistry (beaconFrame 51 1 [3, 1, 6]) 39 (-40) 2000 = some s'
          ∧ s'.networks = fullRegistry.networks ++ [net]
          ∧ net.bssid = [51, 51, 51, 51, 51, 51]
          ∧ maxNetworksDefault < s'.networks.length :=
  have hfull : maxNetworksDefault ≤ fullRegistry.networks.length := by
    rw [show fullRegistry.networks.length = 50 from by rfl]; decide
  have hnew : findNetwork fullRegistry (readMac (shift (beaconFrame 51 1 [3, 1, 6]) 16)) < 0 := by
    rw [show findNetwork fullRegistry (readMac (shift (beaconFrame 51 1 [3, 1, 6]) 16)) = -1
      from by rfl]
    decide
  let ⟨s', net, h1, h2, h3, _, h5⟩ :=
    C22_registry_grows_by_one 39 fullRegistry (beaconFrame 51 1 [3, 1, 6]) 39 (-40) 2000
      (by decide) (by decide) (by decide) hnew
  ⟨⟨by rfl, hfull⟩, s', net, h1, h2, h3.trans (by decide), h5 maxNetworksDefault hfull⟩

/-- C22 (counterexample): after mode start and one beacon from each of 51 addresses the
registry holds 51 entries, one more than the default maximum of 50. -/
theorem C22_counterexample :
    (run manyBeacons (init initialState)).map (fun s => s.networks.length) = some 51
      ∧ maxNetworksDefault = 50 := by
  refine ⟨by rfl, rfl⟩

/-- C27 (code at the failing input): start the mode, take in two beacons, select entry
1, start deauth, and let the sweep of `update()` at time 100000 remove the stale entry
0.  Deauthing is active and the target index is 1, but the registry has one entry: the
index is out of range and the deauth block of the callback indexes outside the
registry. -/
theorem C27_sweep_leaves_index_out_of_range :
    (run (twoBeacons ++ [Op.selectTarget 1, Op.startDeauth, Op.update 100000 500])
        (init initialState)).map
        (fun s => (s.deauthing, s.targetIndex, s.networks.length, deauthTick s 100200,
                   promiscuousCallback 0 s scenarioData 131 (-50) PktType.data 100200))
      = some (true, 1, 1, none, none) := by
  rfl

/-- C28 (code at the failing input): start the mode, take in beacons from `0A:..:0A`
and `0B:..:0B`, start deauth on entry 1 and then select entry 0, whose BSSID is
`0A:..:0A`.  After the sweep of `update()` at time 100000 has removed the stale entry 0,
the target index 0 refers to the entry of `0B:..:0B`: that is what `getTarget()`
returns, and the deauthentication frame the callback sends carries `0B:..:0B` as source
and BSSID. -/
theorem C28_sweep_retargets :
    (run (twoBeacons ++ [Op.selectTarget 1, Op.startDeauth, Op.selectTarget 0])
        (init initialState)).map
        (fun s => ((getTarget s).map (fun n => n.bssid),
                   (getTarget (update s 100000 500)).map (fun n => n.bssid),
                   (deauthTick (update s 100000 500) 100200).map (fun t => t.txFrames)))
      = some (some [10, 10, 10, 10, 10, 10], some [11, 11, 11, 11, 11, 11],
              some [deauthPacket (macBuf 11) (macBuf 255) 7])
    ∧ deauthPacket (macBuf 11) (macBuf 255) 7
        = [0xC0, 0, 0, 0, 255, 255, 255, 255, 255, 255, 11, 11, 11, 11, 11, 11,
           11, 11, 11, 11, 11, 11, 0, 0, 7, 0] := by
  refine ⟨by rfl, by rfl⟩

/-- With fewer than ten elements `runInference` reads nothing and returns the default
result; with at least thirteen every index it reads is inside the array. -/
theorem runInferenceReads_lt (input : Nat → ℚ) (size startTime endTime : Nat) :
    (size < 10 →
        runInferenceReads input size = []
          ∧ (runInference input size startTime endTime).label = MLLabel.NORMAL
          ∧ (runInference input size startTime endTime).confidence = 0)
      ∧ (13 ≤ size → ∀ i ∈ runInferenceReads input size, i < size) := by
  constructor
  · intro h
    have h' : ¬ size ≥ 10 := by omega
    simp [runInferenceReads, runInference, h']
  · intro h i hi
    have h' : size ≥ 10 := by omega
    simp only [runInferenceReads, h', if_true, List.mem_append, List.mem_cons,
      List.mem_singleton, List.not_mem_nil, or_false] at hi
    rcases hi with hi | hi
    · omega
    · split_ifs at hi <;> simp at hi
      omega

/-- C30 (code at the failing input): for a feature array of 10 elements, whatever it
holds, `runInference` (and so `classify`) reads `input[10]` and `input[12]`, which lie
behind the array; and the result depends on them: two arrays with the same ten elements
are classified NORMAL and VULNERABLE according to the value found at index 12. -/
theorem C30_reads_behind_ten_elements :
    (∀ input : Nat → ℚ,
        10 ∈ runInferenceReads input 10 ∧ 12 ∈ runInferenceReads input 10
          ∧ 12 ∈ classifyReads input 10)
    ∧ (List.range 10).map tenQuiet = (List.range 10).map tenQuietThenOne
    ∧ (runInference tenQuiet 10 0 0).label = MLLabel.NORMAL
    ∧ (runInference tenQuietThenOne 10 0 0).label = MLLabel.VULNERABLE
    ∧ (classify ⟨false, 0, 0⟩ tenQuietThenOne 10 0 0).1.label = MLLabel.VULNERABLE := by
  refine ⟨fun input => ?_, ?_, ?_, ?_, ?_⟩
  · simp [runInferenceReads, classifyReads]
  · simp [tenQuiet, tenQuietThenOne, List.range, List.range.loop]
  · simp [runInference, tenQuiet]
    norm_num
  · simp [runInference, tenQuietThenOne]
    norm_num
  · simp [classify, runInference, tenQuietThenOne]
    norm_num

end Porkchop
